import Mathlib

/-!
# ModbusTcpEx: the Modbus/TCP write-request encoder and its session

A shallow embedding of `src/ModbusTcpEx/modbus.h` (class `modbus`) and of the
driver `src/ModbusTcpEx/Source.cpp`.

* Machine integers are `Nat`/`Int`; every narrowing cast of the source
  (`(uint8_t)…`, the `uint32_t` increment) is an explicit `%`.
* The platform socket layer is not part of the repository.  Its answers are
  read from an `Env` (one answer per primitive call, indexed by the number of
  primitive calls made before it), and every call made to it is appended to a
  `World`, the log of primitive calls.
* `new uint8_t[n]` yields `n` bytes of unspecified content; that content is
  read from `Env.heap`.
-/

namespace ModbusTcpEx

/-! ## Constants of `modbus.h` -/

def MAX_MSG_LENGTH : Nat := 260

def READ_COILS : Int := 0x01
def READ_INPUT_BITS : Int := 0x02
def READ_REGS : Int := 0x03
def READ_INPUT_REGS : Int := 0x04
def WRITE_COIL : Int := 0x05
def WRITE_REG : Int := 0x06
def WRITE_COILS : Int := 0x0F
def WRITE_REGS : Int := 0x10

/-- `SOCKET_ERROR` of the Windows socket headers. -/
def SOCKET_ERROR : Int := -1

/-- `AF_INET` of the socket headers. -/
def AF_INET : Nat := 2

/-- Socket options set by `modbus_connect`. -/
inductive SockOpt where
  | SO_SNDTIMEO
  | SO_RCVTIMEO
  deriving DecidableEq, Repr

/-- `SOCKADDR_IN`, the three members `modbus_connect` assigns. -/
structure SOCKADDR_IN where
  sin_family : Nat
  sin_addr : Nat
  sin_port : Nat
  deriving DecidableEq, Repr

/-- One call of a primitive of the platform socket layer, with its arguments. -/
inductive Call where
  | WSAStartup
  | WSACleanup
  | socket
  | setsockopt (s : Int) (opt : SockOpt)
  | connect (s : Int) (server : SOCKADDR_IN)
  | send (s : Int) (bytes : List Nat)
  | close (s : Int)
  deriving DecidableEq, Repr

/-- The log of primitive calls, oldest first. -/
abbrev World := List Call

/-- The platform: which build (`_WIN32` or Berkeley sockets), the constants and
pure helpers of its headers, the result of each primitive call, and the content
of freshly allocated memory. -/
structure Env where
  win32 : Bool
  INVALID_SOCKET : Int
  inet_addr : String → Nat
  htons : Nat → Nat
  WSAStartup : Nat → Int
  socket : Nat → Int
  connect : Nat → Int
  send : Nat → Int
  heap : Nat → Nat → Nat

/-- The macro `X_ISVALIDSOCKET(s)`. -/
def X_ISVALIDSOCKET (env : Env) (s : Int) : Bool :=
  if env.win32 then s != env.INVALID_SOCKET else decide (0 ≤ s)

/-- The macro `X_ISCONNECTSUCCEED(s)`. -/
def X_ISCONNECTSUCCEED (env : Env) (s : Int) : Bool :=
  if env.win32 then s != SOCKET_ERROR else decide (0 ≤ s)

/-- The call `WSACleanup()`, compiled only under `_WIN32`. -/
def WSACleanup (env : Env) (w : World) : World :=
  if env.win32 then w ++ [Call.WSACleanup] else w

/-- The class `modbus`: its public and private data members. -/
structure modbus where
  err : Bool
  err_no : Int
  error_msg : String
  _connected : Bool
  PORT : Nat
  _msg_id : Nat
  _slaveid : Int
  HOST : String
  _socket : Int
  _server : SOCKADDR_IN
  deriving DecidableEq, Repr

/-- The constructor `modbus::modbus(host, port)`; `_socket` and `_server` keep
their default member initialisers `{}`. -/
def modbus.construct (host : String) (port : Nat) : modbus :=
  { err := false
    err_no := 0
    error_msg := ""
    _connected := false
    PORT := port % 65536
    _msg_id := 1
    _slaveid := 1
    HOST := host
    _socket := 0
    _server := ⟨0, 0, 0⟩ }

/-- The accessor `is_connected()`. -/
def modbus.is_connected (m : modbus) : Bool := m._connected

/-- The setter `modbus_set_slave_id(id)`. -/
def modbus.modbus_set_slave_id (m : modbus) (id : Int) : modbus :=
  { m with _slaveid := id }

/-- The method `modbus_connect()`: result, session afterwards, log afterwards. -/
def modbus.modbus_connect (env : Env) (m : modbus) (w : World) : Bool × modbus × World :=
  if m.HOST.isEmpty ∨ m.PORT = 0 then (false, m, w)
  else
    let w1 := if env.win32 then w ++ [Call.WSAStartup] else w
    if env.win32 = true ∧ env.WSAStartup w.length ≠ 0 then (false, m, w1)
    else
      let s := env.socket w1.length
      let w2 := w1 ++ [Call.socket]
      let m1 := { m with _socket := s }
      if X_ISVALIDSOCKET env s = false then (false, m1, WSACleanup env w2)
      else
        let w3 := w2 ++ [Call.setsockopt s SockOpt.SO_SNDTIMEO, Call.setsockopt s SockOpt.SO_RCVTIMEO]
        let m2 := { m1 with _server := ⟨AF_INET, env.inet_addr m.HOST, env.htons m.PORT⟩ }
        let r := env.connect w3.length
        let w4 := w3 ++ [Call.connect s m2._server]
        if X_ISCONNECTSUCCEED env r = false then (false, m2, WSACleanup env w4)
        else (true, { m2 with _connected := true }, w4)

/-- The method `modbus_close() const`: it cannot assign a member, so only the
log changes. -/
def modbus.modbus_close (env : Env) (m : modbus) (w : World) : World :=
  WSACleanup env (w ++ [Call.close m._socket])

/-- The cast `(uint8_t)x` of an `int`. -/
def uint8_t (x : Int) : Nat := (x % 256).toNat

/-- The expression `new uint8_t[n]`: `n` bytes of unspecified content. -/
def new_uint8_t (env : Env) (w : World) (n : Nat) : List Nat :=
  (List.range n).map (fun i => env.heap w.length i % 256)

/-- The read `value[i]` through a `const uint16_t*` pointing at the array `value`.
A read past the end of the array, undefined in the source, yields 0 here; the
properties below only read inside the array. -/
def readU16 (value : List Nat) (i : Nat) : Nat := value.getD i 0 % 65536

/-- The method `modbus_build_request(to_send, address, func) const`. -/
def modbus.modbus_build_request (m : modbus) (to_send : List Nat) (address : Nat) (func : Int) :
    List Nat :=
  let to_send := to_send.set 0 ((m._msg_id >>> 8) % 256)
  let to_send := to_send.set 1 ((m._msg_id &&& 0x00FF) % 256)
  let to_send := to_send.set 2 0
  let to_send := to_send.set 3 0
  let to_send := to_send.set 4 0
  let to_send := to_send.set 6 (uint8_t m._slaveid)
  let to_send := to_send.set 7 (uint8_t func)
  let to_send := to_send.set 8 ((address >>> 8) % 256)
  let to_send := to_send.set 9 ((address &&& 0x00FF) % 256)
  to_send

/-- The method `modbus_send(to_send, length)`. -/
def modbus.modbus_send (env : Env) (m : modbus) (w : World) (to_send : List Nat) (length : Nat) :
    Int × modbus × World :=
  let m1 := { m with _msg_id := (m._msg_id + 1) % 2 ^ 32 }
  (env.send w.length, m1, w ++ [Call.send m._socket (to_send.take length)])

/-- The register loop of `modbus_write`: iteration `i` stores `value[i]` big-endian. -/
def regsLoop (value : List Nat) (amount : Nat) (to_send : List Nat) : List Nat :=
  (List.range amount).foldl
    (fun b i => (b.set (13 + 2 * i) ((readU16 value i >>> 8) % 256)).set (14 + 2 * i)
      ((readU16 value i &&& 0x00FF) % 256))
    to_send

/-- The first coil loop of `modbus_write`: `to_send[13 + i] = 0`. -/
def zeroLoop (n : Nat) (to_send : List Nat) : List Nat :=
  (List.range n).foldl (fun b i => b.set (13 + i) 0) to_send

/-- The second coil loop of `modbus_write`:
`to_send[13 + i / 8] += (uint8_t)(value[i] << (i % 8u))`. -/
def coilsLoop (value : List Nat) (amount : Nat) (to_send : List Nat) : List Nat :=
  (List.range amount).foldl
    (fun b i => b.set (13 + i / 8)
      ((b.getD (13 + i / 8) 0 + (readU16 value i <<< (i % 8)) % 256) % 256))
    to_send

/-- The method `modbus_write(address, amount, func, value)`: status, session
afterwards, log afterwards. -/
def modbus.modbus_write (env : Env) (m : modbus) (w : World) (address amount : Nat) (func : Int)
    (value : List Nat) : Int × modbus × World :=
  if func = WRITE_COIL ∨ func = WRITE_REG then
    let to_send := new_uint8_t env w 12
    let to_send := m.modbus_build_request to_send address func
    let to_send := to_send.set 5 6
    let to_send := to_send.set 10 ((readU16 value 0 >>> 8) % 256)
    let to_send := to_send.set 11 ((readU16 value 0 &&& 0x00FF) % 256)
    m.modbus_send env w to_send 12
  else if func = WRITE_REGS then
    let to_send := new_uint8_t env w (13 + 2 * amount)
    let to_send := m.modbus_build_request to_send address func
    let to_send := to_send.set 5 ((7 + 2 * amount) % 256)
    let to_send := to_send.set 10 ((amount >>> 8) % 256)
    let to_send := to_send.set 11 ((amount &&& 0x00FF) % 256)
    let to_send := to_send.set 12 ((2 * amount) % 256)
    let to_send := regsLoop value amount to_send
    m.modbus_send env w to_send (13 + 2 * amount)
  else if func = WRITE_COILS then
    let size := (14 + Int.tdiv ((amount : Int) - 1) 8).toNat
    let to_send := new_uint8_t env w size
    let to_send := m.modbus_build_request to_send address func
    let to_send := to_send.set 5 ((7 + (amount + 7) / 8) % 256)
    let to_send := to_send.set 10 ((amount >>> 8) % 256)
    let to_send := to_send.set 11 ((amount &&& 0x00FF) % 256)
    let to_send := to_send.set 12 (((amount + 7) / 8) % 256)
    let to_send := zeroLoop ((amount + 7) / 8) to_send
    let to_send := coilsLoop value amount to_send
    m.modbus_send env w to_send size
  else (0, m, w)

/-- The method `modbus_write_register(address, value)`. -/
def modbus.modbus_write_register (env : Env) (m : modbus) (w : World) (address value : Nat) :
    Int × modbus × World :=
  if m._connected = true then
    let r := m.modbus_write env w address 1 WRITE_REG [value]
    (0, r.2.1, r.2.2)
  else (0, m, w)

/-- The buffers handed to the transport's `send`, oldest first. -/
def framesSent : World → List (List Nat)
  | [] => []
  | Call.send _ bytes :: w => bytes :: framesSent w
  | _ :: w => framesSent w

/-- A platform on which every primitive succeeds (Berkeley build). -/
def okEnv : Env :=
  { win32 := false
    INVALID_SOCKET := -1
    inet_addr := fun _ => 0x7F000001
    htons := fun p => (p % 256) * 256 + p / 256
    WSAStartup := fun _ => 0
    socket := fun _ => 3
    connect := fun _ => 0
    send := fun _ => 12
    heap := fun _ _ => 0xCD }

/-! ## Auxiliary definitions used to state and prove the properties -/

/-- The buffer `modbus_write` has built when it calls `modbus_send` in the
`WRITE_COIL`/`WRITE_REG` branch. -/
def singleBuf (env : Env) (m : modbus) (w : World) (address : Nat) (func : Int)
    (value : List Nat) : List Nat :=
  (((m.modbus_build_request (new_uint8_t env w 12) address func).set 5 6).set 10
    ((readU16 value 0 >>> 8) % 256)).set 11 ((readU16 value 0 &&& 0x00FF) % 256)

/-- The buffer of the `WRITE_REGS` branch before its loop. -/
def regsHead (env : Env) (m : modbus) (w : World) (address amount : Nat) : List Nat :=
  ((((m.modbus_build_request (new_uint8_t env w (13 + 2 * amount)) address WRITE_REGS).set 5
    ((7 + 2 * amount) % 256)).set 10 ((amount >>> 8) % 256)).set 11
    ((amount &&& 0x00FF) % 256)).set 12 ((2 * amount) % 256)

/-- The buffer `modbus_write` has built when it calls `modbus_send` in the
`WRITE_REGS` branch. -/
def regsBuf (env : Env) (m : modbus) (w : World) (address amount : Nat) (value : List Nat) :
    List Nat :=
  regsLoop value amount (regsHead env m w address amount)

/-- The size `14 + (amount - 1) / 8` of the `WRITE_COILS` branch, in C++ `int`
arithmetic (division truncates towards zero). -/
def coilsSize (amount : Nat) : Nat := (14 + Int.tdiv ((amount : Int) - 1) 8).toNat

/-- The buffer of the `WRITE_COILS` branch before its loops. -/
def coilsHead (env : Env) (m : modbus) (w : World) (address amount : Nat) : List Nat :=
  ((((m.modbus_build_request (new_uint8_t env w (coilsSize amount)) address WRITE_COILS).set 5
    ((7 + (amount + 7) / 8) % 256)).set 10 ((amount >>> 8) % 256)).set 11
    ((amount &&& 0x00FF) % 256)).set 12 (((amount + 7) / 8) % 256)

/-- The buffer `modbus_write` has built when it calls `modbus_send` in the
`WRITE_COILS` branch. -/
def coilsBuf (env : Env) (m : modbus) (w : World) (address amount : Nat) (value : List Nat) :
    List Nat :=
  coilsLoop value amount (zeroLoop ((amount + 7) / 8) (coilsHead env m w address amount))

/-- The sum, over the coils `i < n` that fall into byte `j` (`i / 8 = j`), of the
byte `(uint8_t)(value[i] << (i % 8))`. -/
def packSum (value : List Nat) : Nat → Nat → Nat
  | 0, _ => 0
  | n + 1, j => packSum value n j + (if n / 8 = j then (readU16 value n * 2 ^ (n % 8)) % 256 else 0)

/-- The 16-bit big-endian number formed by bytes `i` and `i + 1` of a frame. -/
def be16 (frame : List Nat) (i : Nat) : Nat := frame.getD i 0 * 256 + frame.getD (i + 1) 0

/-- Bit `k` of a byte. -/
def bitOf (byte k : Nat) : Nat := (byte / 2 ^ k) % 2

/-- A sequence of `modbus_write_register(address, value)` calls, in order. -/
def writeRegisters (env : Env) : modbus → World → List (Nat × Nat) → modbus × World
  | m, w, [] => (m, w)
  | m, w, (a, v) :: rest =>
    let r := m.modbus_write_register env w a v
    writeRegisters env r.2.1 r.2.2 rest

/-- The unspecified content of a freshly allocated buffer from offset `off` on,
`n` bytes of it. -/
def junk (env : Env) (w : World) (off n : Nat) : List Nat :=
  (List.range n).map (fun i => env.heap w.length (off + i) % 256)

/-- Coil `p` as the packing loop has seen it after `n` iterations: `value[p]`
once `p < n`, nothing before. -/
def coilAt (value : List Nat) (n p : Nat) : Nat := if p < n then readU16 value p else 0

/-- One call of a public method of a session. -/
inductive Op where
  | connect
  | close
  | set_slave_id (id : Int)
  | write_register (address value : Nat)
  deriving DecidableEq, Repr

/-- The session and the log after one method call. -/
def step (env : Env) (s : modbus × World) : Op → modbus × World
  | Op.connect => ((s.1.modbus_connect env s.2).2.1, (s.1.modbus_connect env s.2).2.2)
  | Op.close => (s.1, s.1.modbus_close env s.2)
  | Op.set_slave_id id => (s.1.modbus_set_slave_id id, s.2)
  | Op.write_register a v =>
    ((s.1.modbus_write_register env s.2 a v).2.1, (s.1.modbus_write_register env s.2 a v).2.2)

/-- The session and the log after a sequence of method calls. -/
def run (env : Env) : modbus × World → List Op → modbus × World
  | s, [] => s
  | s, op :: ops => run env (step env s op) ops

/-- Whether one call is a `modbus_connect()` that returns `true`. -/
def connectReturnsTrue (env : Env) (s : modbus × World) : Op → Bool
  | Op.connect => (s.1.modbus_connect env s.2).1
  | _ => false

/-- Whether some `modbus_connect()` of the sequence returns `true`. -/
def connectSucceeded (env : Env) : modbus × World → List Op → Bool
  | _, [] => false
  | s, op :: ops => connectReturnsTrue env s op || connectSucceeded env (step env s op) ops

/-- Whether some primitive call logged in `w1` after the calls of `w0` satisfies
`P`, a test on the call and on its position in the log (the index of its
answer in `Env`). -/
def anyNewCall (w0 w1 : World) (P : Call → Nat → Bool) : Bool :=
  (List.range w1.length).any
    (fun i => decide (w0.length ≤ i) && (match w1[i]? with
      | some c => P c i
      | none => false))

/-- Whether, between the logs `w0` and `w1`, `socket()` was called and answered
a handle that `X_ISVALIDSOCKET` accepts. -/
def socketCreated (env : Env) (w0 w1 : World) : Bool :=
  anyNewCall w0 w1 (fun c i => decide (c = Call.socket) && X_ISVALIDSOCKET env (env.socket i))

/-- Whether, between the logs `w0` and `w1`, `connect()` was called and answered
a result that `X_ISCONNECTSUCCEED` accepts. -/
def transportConnected (env : Env) (w0 w1 : World) : Bool :=
  anyNewCall w0 w1 (fun c i => (match c with
    | Call.connect _ _ => true
    | _ => false) && X_ISCONNECTSUCCEED env (env.connect i))

/-- Bitwise-OR packing of the low bits: the coils `i < n` of byte `j`, each
contributing `(value[i] & 1) << (i % 8)`. -/
def orPack (value : List Nat) : Nat → Nat → Nat
  | 0, _ => 0
  | n + 1, j =>
    if n / 8 = j then orPack value n j ||| ((readU16 value n &&& 1) <<< (n % 8))
    else orPack value n j

/-! ## Basic facts -/

theorem shr8 (x : Nat) : x >>> 8 = x / 256 := by
  simp [Nat.shiftRight_eq_div_pow]

theorem and255 (x : Nat) : x &&& 255 = x % 256 :=
  Nat.and_pow_two_sub_one_eq_mod x 8

theorem length_new_uint8_t (env : Env) (w : World) (n : Nat) :
    (new_uint8_t env w n).length = n := by
  simp [new_uint8_t]

theorem length_build_request (m : modbus) (b : List Nat) (a : Nat) (f : Int) :
    (m.modbus_build_request b a f).length = b.length := by
  simp [modbus.modbus_build_request]

theorem length_regsLoop (value : List Nat) (n : Nat) (b : List Nat) :
    (regsLoop value n b).length = b.length := by
  induction n with
  | zero => simp [regsLoop]
  | succ n ih =>
    unfold regsLoop at ih ⊢
    rw [List.range_succ, List.foldl_append]
    simpa using ih

theorem length_zeroLoop (n : Nat) (b : List Nat) : (zeroLoop n b).length = b.length := by
  induction n with
  | zero => simp [zeroLoop]
  | succ n ih =>
    unfold zeroLoop at ih ⊢
    rw [List.range_succ, List.foldl_append]
    simpa using ih

theorem length_coilsLoop (value : List Nat) (n : Nat) (b : List Nat) :
    (coilsLoop value n b).length = b.length := by
  induction n with
  | zero => simp [coilsLoop]
  | succ n ih =>
    unfold coilsLoop at ih ⊢
    rw [List.range_succ, List.foldl_append]
    simpa using ih

theorem modbus_write_single (env : Env) (m : modbus) (w : World) (a q : Nat) (f : Int)
    (value : List Nat) (hf : f = WRITE_COIL ∨ f = WRITE_REG) :
    m.modbus_write env w a q f value = m.modbus_send env w (singleBuf env m w a f value) 12 := by
  simp [modbus.modbus_write, singleBuf, hf]

theorem modbus_write_regs (env : Env) (m : modbus) (w : World) (a q : Nat) (value : List Nat) :
    m.modbus_write env w a q WRITE_REGS value
      = m.modbus_send env w (regsBuf env m w a q value) (13 + 2 * q) := by
  simp [modbus.modbus_write, regsBuf, regsHead, WRITE_REGS, WRITE_COIL, WRITE_REG]

theorem modbus_write_coils (env : Env) (m : modbus) (w : World) (a q : Nat) (value : List Nat) :
    m.modbus_write env w a q WRITE_COILS value
      = m.modbus_send env w (coilsBuf env m w a q value) (coilsSize q) := by
  simp [modbus.modbus_write, coilsBuf, coilsHead, coilsSize, WRITE_REGS, WRITE_COILS, WRITE_COIL,
    WRITE_REG]

theorem range12 : List.range 12 = [0, 1, 2, 3, 4, 5, 6, 7, 8, 9, 10, 11] := by decide

theorem singleBuf_eq (env : Env) (m : modbus) (w : World) (a : Nat) (f : Int) (value : List Nat) :
    singleBuf env m w a f value
      = [(m._msg_id / 256) % 256, m._msg_id % 256, 0, 0, 0, 6, uint8_t m._slaveid, uint8_t f,
          (a / 256) % 256, a % 256, (readU16 value 0 / 256) % 256, readU16 value 0 % 256] := by
  simp [singleBuf, modbus.modbus_build_request, new_uint8_t, range12, shr8, and255]

theorem modbus_write_register_connected (env : Env) (m : modbus) (w : World) (a v : Nat)
    (hc : m._connected = true) :
    m.modbus_write_register env w a v
      = (0, { m with _msg_id := (m._msg_id + 1) % 2 ^ 32 },
          w ++ [Call.send m._socket
            [(m._msg_id / 256) % 256, m._msg_id % 256, 0, 0, 0, 6, uint8_t m._slaveid, 6,
              (a / 256) % 256, a % 256, ((v % 65536) / 256) % 256, (v % 65536) % 256]]) := by
  simp [modbus.modbus_write_register, hc, modbus_write_single, WRITE_REG, singleBuf_eq,
    modbus.modbus_send, readU16, uint8_t]

theorem modbus_connect_true (env : Env) (m : modbus) (w : World)
    (h : (m.modbus_connect env w).1 = true) :
    (m.modbus_connect env w).2.1._connected = true
      ∧ (m.modbus_connect env w).2.1._msg_id = m._msg_id
      ∧ (m.modbus_connect env w).2.1._slaveid = m._slaveid := by
  cases hw : env.win32 <;> simp only [modbus.modbus_connect, hw] at h ⊢ <;>
    split_ifs at h ⊢ <;> simp_all

/-! ## The loops of `modbus_write` -/

theorem regsLoop_succ (value : List Nat) (n : Nat) (b : List Nat) :
    regsLoop value (n + 1) b
      = ((regsLoop value n b).set (13 + 2 * n) ((readU16 value n >>> 8) % 256)).set (14 + 2 * n)
          ((readU16 value n &&& 0x00FF) % 256) := by
  simp [regsLoop, List.range_succ]

theorem zeroLoop_succ (n : Nat) (b : List Nat) :
    zeroLoop (n + 1) b = (zeroLoop n b).set (13 + n) 0 := by
  simp [zeroLoop, List.range_succ]

theorem coilsLoop_succ (value : List Nat) (n : Nat) (b : List Nat) :
    coilsLoop value (n + 1) b
      = (coilsLoop value n b).set (13 + n / 8)
          (((coilsLoop value n b).getD (13 + n / 8) 0 + (readU16 value n <<< (n % 8)) % 256)
            % 256) := by
  simp [coilsLoop, List.range_succ]

theorem getElem?_regsLoop (value : List Nat) (n : Nat) (b : List Nat) (i : Nat) :
    (regsLoop value n b)[i]?
      = if 13 ≤ i ∧ i < 13 + 2 * n ∧ i < b.length then
          some (if (i - 13) % 2 = 0 then (readU16 value ((i - 13) / 2) / 256) % 256
                else readU16 value ((i - 13) / 2) % 256)
        else b[i]? := by
  induction n with
  | zero =>
    have : ¬ (13 ≤ i ∧ i < 13 + 2 * 0 ∧ i < b.length) := by omega
    simp [regsLoop, this]
  | succ n ih =>
    rw [regsLoop_succ, List.getElem?_set, List.getElem?_set, ih]
    simp only [List.length_set, length_regsLoop, shr8, and255]
    by_cases h1 : 14 + 2 * n = i
    · subst h1
      have e1 : (14 + 2 * n - 13) / 2 = n := by omega
      have e2 : ¬ ((14 + 2 * n - 13) % 2 = 0) := by omega
      by_cases hl : 14 + 2 * n < b.length
      · have : 13 ≤ 14 + 2 * n ∧ 14 + 2 * n < 13 + 2 * (n + 1) ∧ 14 + 2 * n < b.length := by
          omega
        simp [hl, this, e1, e2]
      · have : ¬ (13 ≤ 14 + 2 * n ∧ 14 + 2 * n < 13 + 2 * (n + 1) ∧ 14 + 2 * n < b.length) := by
          omega
        have hn : b.length ≤ 14 + 2 * n := by omega
        simp [hl, this, List.getElem?_eq_none hn]
    · by_cases h2 : 13 + 2 * n = i
      · subst h2
        have e1 : (13 + 2 * n - 13) / 2 = n := by omega
        have e2 : (13 + 2 * n - 13) % 2 = 0 := by omega
        by_cases hl : 13 + 2 * n < b.length
        · have : 13 ≤ 13 + 2 * n ∧ 13 + 2 * n < 13 + 2 * (n + 1) ∧ 13 + 2 * n < b.length := by
            omega
          simp [h1, hl, this, e1, e2]
        · have : ¬ (13 ≤ 13 + 2 * n ∧ 13 + 2 * n < 13 + 2 * (n + 1) ∧ 13 + 2 * n < b.length) := by
            omega
          have hn : b.length ≤ 13 + 2 * n := by omega
          simp [h1, hl, this, List.getElem?_eq_none hn]
      · have hiff : (13 ≤ i ∧ i < 13 + 2 * (n + 1) ∧ i < b.length)
            ↔ (13 ≤ i ∧ i < 13 + 2 * n ∧ i < b.length) := by omega
        simp only [h1, h2, if_false, hiff]

theorem getElem?_zeroLoop (n : Nat) (b : List Nat) (i : Nat) :
    (zeroLoop n b)[i]? = if 13 ≤ i ∧ i < 13 + n ∧ i < b.length then some 0 else b[i]? := by
  induction n with
  | zero =>
    have : ¬ (13 ≤ i ∧ i < 13 + 0 ∧ i < b.length) := by omega
    simp [zeroLoop, this]
  | succ n ih =>
    rw [zeroLoop_succ, List.getElem?_set, ih]
    simp only [length_zeroLoop]
    by_cases h1 : 13 + n = i
    · subst h1
      by_cases hl : 13 + n < b.length
      · have : 13 ≤ 13 + n ∧ 13 + n < 13 + (n + 1) ∧ 13 + n < b.length := by omega
        simp [hl, this]
      · have : ¬ (13 ≤ 13 + n ∧ 13 + n < 13 + (n + 1) ∧ 13 + n < b.length) := by omega
        have hn : b.length ≤ 13 + n := by omega
        simp [hl, this, List.getElem?_eq_none hn]
    · have hiff : (13 ≤ i ∧ i < 13 + (n + 1) ∧ i < b.length)
          ↔ (13 ≤ i ∧ i < 13 + n ∧ i < b.length) := by omega
      simp only [h1, if_false, hiff]

theorem packSum_eq_zero (value : List Nat) (n j : Nat) (h : n ≤ 8 * j) :
    packSum value n j = 0 := by
  induction n with
  | zero => rfl
  | succ n ih =>
    have hne : ¬ (n / 8 = j) := by omega
    simp [packSum, hne, ih (by omega)]

theorem shl_eq (x k : Nat) : x <<< k = x * 2 ^ k := Nat.shiftLeft_eq x k

theorem getElem?_coilsLoop (value : List Nat) (n : Nat) (b : List Nat) (i : Nat) :
    (coilsLoop value n b)[i]?
      = if 13 ≤ i ∧ i < 13 + (n + 7) / 8 then
          (b[i]?).map (fun x => (x + packSum value n (i - 13)) % 256)
        else b[i]? := by
  induction n generalizing i with
  | zero =>
    have : ¬ (13 ≤ i ∧ i < 13 + (0 + 7) / 8) := by omega
    simp [coilsLoop, this]
  | succ n ih =>
    rw [coilsLoop_succ, List.getElem?_set, List.getD_eq_getElem?_getD, ih (13 + n / 8)]
    simp only [length_coilsLoop, shl_eq]
    by_cases h1 : 13 + n / 8 = i
    · subst h1
      have c1 : 13 ≤ 13 + n / 8 ∧ 13 + n / 8 < 13 + (n + 1 + 7) / 8 := by omega
      have e1 : 13 + n / 8 - 13 = n / 8 := by omega
      by_cases hl : 13 + n / 8 < b.length
      · obtain ⟨x, hx⟩ : ∃ x, b[13 + n / 8]? = some x :=
          ⟨b[13 + n / 8], List.getElem?_eq_getElem hl⟩
        rw [if_pos rfl, if_pos hl, if_pos c1, hx, e1]
        by_cases c0 : 13 ≤ 13 + n / 8 ∧ 13 + n / 8 < 13 + (n + 7) / 8
        · rw [if_pos c0]
          simp only [Option.map_some', Option.getD_some, packSum, if_true, Option.some.injEq]
          omega
        · have hz : packSum value n (n / 8) = 0 := packSum_eq_zero value n (n / 8) (by omega)
          rw [if_neg c0]
          simp only [Option.map_some', Option.getD_some, packSum, if_true, Option.some.injEq, hz]
          omega
      · have hn : b.length ≤ 13 + n / 8 := by omega
        simp [hl, c1, List.getElem?_eq_none hn]
    · rw [ih i]
      simp only [h1, if_false]
      by_cases hi : 13 ≤ i
      · have hne : ¬ (n / 8 = i - 13) := by omega
        have hiff : (13 ≤ i ∧ i < 13 + (n + 1 + 7) / 8) ↔ (13 ≤ i ∧ i < 13 + (n + 7) / 8) := by
          omega
        simp only [hiff, packSum, hne, if_false, Nat.add_zero]
      · have c2 : ¬ (13 ≤ i ∧ i < 13 + (n + 1 + 7) / 8) := by omega
        have c3 : ¬ (13 ≤ i ∧ i < 13 + (n + 7) / 8) := by omega
        simp only [c2, c3, if_false]

/-! ## The buffers handed to `modbus_send` -/

theorem range13 : List.range 13 = [0, 1, 2, 3, 4, 5, 6, 7, 8, 9, 10, 11, 12] := by decide

theorem new_uint8_t_13 (env : Env) (w : World) (n : Nat) :
    new_uint8_t env w (13 + n)
      = [env.heap w.length 0 % 256, env.heap w.length 1 % 256, env.heap w.length 2 % 256,
          env.heap w.length 3 % 256, env.heap w.length 4 % 256, env.heap w.length 5 % 256,
          env.heap w.length 6 % 256, env.heap w.length 7 % 256, env.heap w.length 8 % 256,
          env.heap w.length 9 % 256, env.heap w.length 10 % 256, env.heap w.length 11 % 256,
          env.heap w.length 12 % 256] ++ junk env w 13 n := by
  simp [new_uint8_t, junk, List.range_add, range13]

theorem length_junk (env : Env) (w : World) (off n : Nat) : (junk env w off n).length = n := by
  simp [junk]

theorem regsHead_eq (env : Env) (m : modbus) (w : World) (a q : Nat) :
    regsHead env m w a q
      = [(m._msg_id / 256) % 256, m._msg_id % 256, 0, 0, 0, (7 + 2 * q) % 256,
          uint8_t m._slaveid, 16, (a / 256) % 256, a % 256, (q / 256) % 256, q % 256,
          (2 * q) % 256] ++ junk env w 13 (2 * q) := by
  simp [regsHead, modbus.modbus_build_request, new_uint8_t_13, shr8, and255, uint8_t, WRITE_REGS]

theorem coilsSize_eq (q : Nat) : coilsSize q = 13 + (1 + (q - 1) / 8) := by
  cases q with
  | zero => decide
  | succ n =>
    have h : ((n + 1 : Nat) : Int) - 1 = (n : Int) := by omega
    have h2 : Int.tdiv (n : Int) 8 = ((n / 8 : Nat) : Int) := by
      rw [Int.tdiv_eq_ediv (by omega) (by omega)]
      omega
    unfold coilsSize
    rw [h, h2]
    omega

theorem coilsHead_eq (env : Env) (m : modbus) (w : World) (a q : Nat) :
    coilsHead env m w a q
      = [(m._msg_id / 256) % 256, m._msg_id % 256, 0, 0, 0, (7 + (q + 7) / 8) % 256,
          uint8_t m._slaveid, 15, (a / 256) % 256, a % 256, (q / 256) % 256, q % 256,
          ((q + 7) / 8) % 256] ++ junk env w 13 (1 + (q - 1) / 8) := by
  simp [coilsHead, coilsSize_eq, modbus.modbus_build_request, new_uint8_t_13, shr8, and255,
    uint8_t, WRITE_COILS]

theorem length_regsBuf (env : Env) (m : modbus) (w : World) (a q : Nat) (value : List Nat) :
    (regsBuf env m w a q value).length = 13 + 2 * q := by
  simp [regsBuf, length_regsLoop, regsHead_eq, length_junk]
  omega

theorem length_coilsBuf (env : Env) (m : modbus) (w : World) (a q : Nat) (value : List Nat) :
    (coilsBuf env m w a q value).length = 14 + (q - 1) / 8 := by
  simp [coilsBuf, length_coilsLoop, length_zeroLoop, coilsHead_eq, length_junk]
  omega

theorem getElem?_regsBuf (env : Env) (m : modbus) (w : World) (a q : Nat) (value : List Nat)
    (i : Nat) :
    (regsBuf env m w a q value)[i]?
      = if 13 ≤ i ∧ i < 13 + 2 * q then
          some (if (i - 13) % 2 = 0 then (readU16 value ((i - 13) / 2) / 256) % 256
                else readU16 value ((i - 13) / 2) % 256)
        else (regsHead env m w a q)[i]? := by
  have hl : (regsHead env m w a q).length = 13 + 2 * q := by
    simp [regsHead_eq, length_junk]
    omega
  have hiff : (13 ≤ i ∧ i < 13 + 2 * q ∧ i < (regsHead env m w a q).length)
      ↔ (13 ≤ i ∧ i < 13 + 2 * q) := by omega
  rw [regsBuf, getElem?_regsLoop]
  simp only [hiff]

theorem getElem?_coilsBuf (env : Env) (m : modbus) (w : World) (a q : Nat) (value : List Nat)
    (i : Nat) :
    (coilsBuf env m w a q value)[i]?
      = if 13 ≤ i ∧ i < 13 + (q + 7) / 8 then some (packSum value q (i - 13) % 256)
        else (coilsHead env m w a q)[i]? := by
  have hl : (coilsHead env m w a q).length = 14 + (q - 1) / 8 := by
    simp [coilsHead_eq, length_junk]
    omega
  rw [coilsBuf, getElem?_coilsLoop, getElem?_zeroLoop]
  by_cases c : 13 ≤ i ∧ i < 13 + (q + 7) / 8
  · have c2 : 13 ≤ i ∧ i < 13 + (q + 7) / 8 ∧ i < (coilsHead env m w a q).length := by omega
    rw [if_pos c, if_pos c, if_pos c2]
    simp
  · rw [if_neg c, if_neg c]
    have c2 : ¬ (13 ≤ i ∧ i < 13 + (q + 7) / 8 ∧ i < (coilsHead env m w a q).length) := by omega
    rw [if_neg c2]

/-! ## Bits of a packed byte -/

theorem coilAt_le (value : List Nat) (hb : ∀ i, readU16 value i ≤ 1) (n p : Nat) :
    coilAt value n p ≤ 1 := by
  unfold coilAt
  split
  · exact hb p
  · omega

theorem coilAt_succ_of_ne (value : List Nat) (n p : Nat) (h : p ≠ n) :
    coilAt value (n + 1) p = coilAt value n p := by
  unfold coilAt
  by_cases c : p < n
  · rw [if_pos c, if_pos (by omega)]
  · rw [if_neg c, if_neg (by omega)]

theorem coilAt_succ (value : List Nat) (n p : Nat) :
    coilAt value (n + 1) p = coilAt value n p + (if p = n then readU16 value n else 0) := by
  unfold coilAt
  by_cases c : p < n
  · rw [if_pos c, if_pos (by omega), if_neg (by omega)]
    rfl
  · by_cases e : p = n
    · subst e
      simp
    · rw [if_neg c, if_neg (by omega), if_neg e]

theorem packSum_bits (value : List Nat) (hb : ∀ i, readU16 value i ≤ 1) (n j : Nat) :
    packSum value n j
      = coilAt value n (8 * j + 0) + 2 * coilAt value n (8 * j + 1)
        + 4 * coilAt value n (8 * j + 2) + 8 * coilAt value n (8 * j + 3)
        + 16 * coilAt value n (8 * j + 4) + 32 * coilAt value n (8 * j + 5)
        + 64 * coilAt value n (8 * j + 6) + 128 * coilAt value n (8 * j + 7) := by
  induction n with
  | zero => simp [packSum, coilAt]
  | succ n ih =>
    rw [packSum, ih]
    by_cases h : n / 8 = j
    · rw [if_pos h]
      obtain ⟨r, hr, hn⟩ : ∃ r, r < 8 ∧ n = 8 * j + r := ⟨n % 8, by omega, by omega⟩
      have hmod : n % 8 = r := by omega
      have hv := hb n
      rw [hmod]
      interval_cases r <;> subst hn <;> (try simp only [Nat.add_zero] at hv) <;>
        simp [coilAt_succ] <;> omega
    · rw [if_neg h]
      rw [coilAt_succ_of_ne value n (8 * j + 0) (by omega),
        coilAt_succ_of_ne value n (8 * j + 1) (by omega),
        coilAt_succ_of_ne value n (8 * j + 2) (by omega),
        coilAt_succ_of_ne value n (8 * j + 3) (by omega),
        coilAt_succ_of_ne value n (8 * j + 4) (by omega),
        coilAt_succ_of_ne value n (8 * j + 5) (by omega),
        coilAt_succ_of_ne value n (8 * j + 6) (by omega),
        coilAt_succ_of_ne value n (8 * j + 7) (by omega)]
      omega

theorem bitOf_packSum (value : List Nat) (hb : ∀ i, readU16 value i ≤ 1) (n j k : Nat)
    (hk : k < 8) : bitOf (packSum value n j % 256) k = coilAt value n (8 * j + k) := by
  have h0 := coilAt_le value hb n (8 * j + 0)
  have h1 := coilAt_le value hb n (8 * j + 1)
  have h2 := coilAt_le value hb n (8 * j + 2)
  have h3 := coilAt_le value hb n (8 * j + 3)
  have h4 := coilAt_le value hb n (8 * j + 4)
  have h5 := coilAt_le value hb n (8 * j + 5)
  have h6 := coilAt_le value hb n (8 * j + 6)
  have h7 := coilAt_le value hb n (8 * j + 7)
  rw [packSum_bits value hb n j]
  unfold bitOf
  simp only [Nat.add_zero] at h0 ⊢
  interval_cases k <;> norm_num <;> omega

theorem readU16_le_one (value : List Nat) (hbits : ∀ v ∈ value, v = 0 ∨ v = 1) (i : Nat) :
    readU16 value i ≤ 1 := by
  unfold readU16
  rw [List.getD_eq_getElem?_getD]
  by_cases h : i < value.length
  · rw [List.getElem?_eq_getElem h]
    rcases hbits _ (List.getElem_mem h) with e | e <;> simp [e]
  · rw [List.getElem?_eq_none (by omega)]
    simp

/-! ## What `modbus_write` hands to the transport -/

theorem world_modbus_write_single (env : Env) (m : modbus) (w : World) (a q : Nat) (f : Int)
    (value : List Nat) (hf : f = WRITE_COIL ∨ f = WRITE_REG) :
    (m.modbus_write env w a q f value).2.2
      = w ++ [Call.send m._socket (singleBuf env m w a f value)] := by
  rw [modbus_write_single env m w a q f value hf]
  simp [modbus.modbus_send, singleBuf_eq]

theorem world_modbus_write_regs (env : Env) (m : modbus) (w : World) (a q : Nat)
    (value : List Nat) :
    (m.modbus_write env w a q WRITE_REGS value).2.2
      = w ++ [Call.send m._socket (regsBuf env m w a q value)] := by
  rw [modbus_write_regs]
  simp [modbus.modbus_send, List.take_of_length_le, length_regsBuf]

theorem world_modbus_write_coils (env : Env) (m : modbus) (w : World) (a q : Nat)
    (value : List Nat) :
    (m.modbus_write env w a q WRITE_COILS value).2.2
      = w ++ [Call.send m._socket (coilsBuf env m w a q value)] := by
  have h : (coilsBuf env m w a q value).length ≤ coilsSize q := by
    rw [length_coilsBuf, coilsSize_eq]
    omega
  rw [modbus_write_coils]
  simp [modbus.modbus_send, List.take_of_length_le h]

theorem getElem?_regsBuf_header (env : Env) (m : modbus) (w : World) (a q : Nat)
    (value : List Nat) (i : Nat) (hi : i < 13) :
    (regsBuf env m w a q value)[i]?
      = [(m._msg_id / 256) % 256, m._msg_id % 256, 0, 0, 0, (7 + 2 * q) % 256,
          uint8_t m._slaveid, 16, (a / 256) % 256, a % 256, (q / 256) % 256, q % 256,
          (2 * q) % 256][i]? := by
  rw [getElem?_regsBuf, if_neg (by omega), regsHead_eq, List.getElem?_append_left (by simpa using hi)]

theorem getElem?_coilsBuf_header (env : Env) (m : modbus) (w : World) (a q : Nat)
    (value : List Nat) (i : Nat) (hi : i < 13) :
    (coilsBuf env m w a q value)[i]?
      = [(m._msg_id / 256) % 256, m._msg_id % 256, 0, 0, 0, (7 + (q + 7) / 8) % 256,
          uint8_t m._slaveid, 15, (a / 256) % 256, a % 256, (q / 256) % 256, q % 256,
          ((q + 7) / 8) % 256][i]? := by
  rw [getElem?_coilsBuf, if_neg (by omega), coilsHead_eq,
    List.getElem?_append_left (by simpa using hi)]

theorem be16_regsBuf_4 (env : Env) (m : modbus) (w : World) (a q : Nat) (value : List Nat) :
    be16 (regsBuf env m w a q value) 4 = (7 + 2 * q) % 256 := by
  simp [be16, getElem?_regsBuf_header]

theorem be16_coilsBuf_4 (env : Env) (m : modbus) (w : World) (a q : Nat) (value : List Nat) :
    be16 (coilsBuf env m w a q value) 4 = (7 + (q + 7) / 8) % 256 := by
  simp [be16, getElem?_coilsBuf_header]

theorem be16_singleBuf_4 (env : Env) (m : modbus) (w : World) (a : Nat) (f : Int)
    (value : List Nat) : be16 (singleBuf env m w a f value) 4 = 6 := by
  simp [be16, singleBuf_eq]

/-! ## Sequences of calls -/

theorem framesSent_append (w1 w2 : World) :
    framesSent (w1 ++ w2) = framesSent w1 ++ framesSent w2 := by
  induction w1 with
  | nil => simp [framesSent]
  | cons c w1 ih => cases c <;> simp [framesSent, ih]

theorem framesSent_WSACleanup (env : Env) (w : World) :
    framesSent (WSACleanup env w) = framesSent w := by
  unfold WSACleanup
  split <;> simp [framesSent_append, framesSent]

theorem framesSent_modbus_close (env : Env) (m : modbus) (w : World) :
    framesSent (m.modbus_close env w) = framesSent w := by
  simp [modbus.modbus_close, framesSent_WSACleanup, framesSent_append, framesSent]

theorem framesSent_modbus_connect (env : Env) (m : modbus) (w : World) :
    framesSent (m.modbus_connect env w).2.2 = framesSent w := by
  cases hw : env.win32 <;> simp only [modbus.modbus_connect, hw] <;> split_ifs <;>
    simp [framesSent_WSACleanup, framesSent_append, framesSent]

theorem modbus_connect_false (env : Env) (m : modbus) (w : World)
    (h : (m.modbus_connect env w).1 = false) :
    (m.modbus_connect env w).2.1._connected = m._connected := by
  cases hw : env.win32 <;> simp only [modbus.modbus_connect, hw] at h ⊢ <;>
    split_ifs at h ⊢ <;> simp_all

theorem modbus_write_register_disconnected (env : Env) (m : modbus) (w : World) (a v : Nat)
    (hc : m._connected = false) : m.modbus_write_register env w a v = (0, m, w) := by
  simp [modbus.modbus_write_register, hc]

theorem connected_modbus_write_register (env : Env) (m : modbus) (w : World) (a v : Nat) :
    (m.modbus_write_register env w a v).2.1._connected = m._connected := by
  cases hc : m._connected
  · rw [modbus_write_register_disconnected env m w a v hc, hc]
  · rw [modbus_write_register_connected env m w a v hc]
    exact hc

theorem connected_step (env : Env) (s : modbus × World) (op : Op) :
    (step env s op).1._connected = (s.1._connected || connectReturnsTrue env s op) := by
  cases op with
  | connect =>
    cases h : (s.1.modbus_connect env s.2).1
    · simp [step, connectReturnsTrue, h, modbus_connect_false env s.1 s.2 h]
    · simp [step, connectReturnsTrue, h, (modbus_connect_true env s.1 s.2 h).1]
  | close => simp [step, connectReturnsTrue]
  | set_slave_id id => simp [step, connectReturnsTrue, modbus.modbus_set_slave_id]
  | write_register a v =>
    simp [step, connectReturnsTrue, connected_modbus_write_register]

theorem connected_run (env : Env) (ops : List Op) (s : modbus × World) :
    (run env s ops).1._connected = (s.1._connected || connectSucceeded env s ops) := by
  induction ops generalizing s with
  | nil => simp [run, connectSucceeded]
  | cons op ops ih =>
    rw [run, ih, connected_step, connectSucceeded, Bool.or_assoc]

theorem framesSent_step_disconnected (env : Env) (s : modbus × World) (op : Op)
    (hc : s.1._connected = false) : framesSent (step env s op).2 = framesSent s.2 := by
  cases op with
  | connect => simp [step, framesSent_modbus_connect]
  | close => simp [step, framesSent_modbus_close]
  | set_slave_id id => simp [step]
  | write_register a v => simp [step, modbus_write_register_disconnected env s.1 s.2 a v hc]

theorem framesSent_run_disconnected (env : Env) (ops : List Op) (s : modbus × World)
    (hc : s.1._connected = false) (hs : connectSucceeded env s ops = false) :
    framesSent (run env s ops).2 = framesSent s.2 := by
  induction ops generalizing s with
  | nil => simp [run]
  | cons op ops ih =>
    rw [connectSucceeded, Bool.or_eq_false_iff] at hs
    have h1 : (step env s op).1._connected = false := by
      rw [connected_step, hc, hs.1]
      rfl
    rw [run, ih (step env s op) h1 hs.2, framesSent_step_disconnected env s op hc]

theorem writeRegisters_connected (env : Env) (l : List (Nat × Nat)) :
    ∀ (m : modbus) (w : World), m._connected = true → m._msg_id < 2 ^ 32 →
      ∃ frames : List (List Nat),
        (writeRegisters env m w l).2 = w ++ frames.map (Call.send m._socket)
        ∧ frames.length = l.length
        ∧ (∀ k, k < l.length → be16 (frames.getD k []) 0 = (m._msg_id + k) % 65536)
        ∧ (writeRegisters env m w l).1._msg_id = (m._msg_id + l.length) % 2 ^ 32 := by
  induction l with
  | nil =>
    intro m w _ ht
    refine ⟨[], by simp [writeRegisters], rfl, ?_, ?_⟩
    · intro k hk
      simp at hk
    · simp only [writeRegisters, List.length_nil, Nat.add_zero]
      exact (Nat.mod_eq_of_lt ht).symm
  | cons p rest ih =>
    intro m w hc ht
    obtain ⟨a, v⟩ := p
    have hstep := modbus_write_register_connected env m w a v hc
    obtain ⟨frames, h1, h2, h3, h4⟩ :=
      ih { m with _msg_id := (m._msg_id + 1) % 2 ^ 32 }
        (w ++ [Call.send m._socket
          [(m._msg_id / 256) % 256, m._msg_id % 256, 0, 0, 0, 6, uint8_t m._slaveid, 6,
            (a / 256) % 256, a % 256, ((v % 65536) / 256) % 256, (v % 65536) % 256]])
        hc (Nat.mod_lt _ (by norm_num))
    refine ⟨[(m._msg_id / 256) % 256, m._msg_id % 256, 0, 0, 0, 6, uint8_t m._slaveid, 6,
        (a / 256) % 256, a % 256, ((v % 65536) / 256) % 256, (v % 65536) % 256] :: frames,
      ?_, ?_, ?_, ?_⟩
    · simp only [writeRegisters, hstep, h1]
      simp
    · simp [h2]
    · intro k hk
      cases k with
      | zero =>
        simp only [List.getD_cons_zero, be16, List.getD_cons_succ, Nat.add_zero]
        omega
      | succ k =>
        have hk2 : k < rest.length := by simpa using hk
        have := h3 k hk2
        simp only [List.getD_cons_succ]
        rw [this]
        simp only []
        omega
    · simp only [writeRegisters, hstep, h4, List.length_cons]
      omega

/-! ## The transaction counter -/

theorem modbus_build_request_low16 (m : modbus) (t2 : Nat) (b : List Nat) (a : Nat) (f : Int)
    (h : t2 % 65536 = m._msg_id % 65536) :
    modbus.modbus_build_request { m with _msg_id := t2 } b a f = m.modbus_build_request b a f := by
  have h1 : t2 / 256 % 256 = m._msg_id / 256 % 256 := by omega
  have h2 : t2 % 256 = m._msg_id % 256 := by omega
  simp only [modbus.modbus_build_request, shr8, and255, h1, h2]

theorem world_modbus_write_low16 (env : Env) (m : modbus) (t2 : Nat) (w : World) (a q : Nat)
    (f : Int) (value : List Nat) (h : t2 % 65536 = m._msg_id % 65536) :
    (modbus.modbus_write env { m with _msg_id := t2 } w a q f value).2.2
      = (m.modbus_write env w a q f value).2.2 := by
  simp only [modbus.modbus_write, modbus.modbus_send, modbus_build_request_low16 m t2 _ a f h]
  split_ifs <;> rfl

theorem session_modbus_write (env : Env) (m : modbus) (w : World) (a q : Nat) (f : Int)
    (value : List Nat) (hf : f = WRITE_COIL ∨ f = WRITE_REG ∨ f = WRITE_REGS ∨ f = WRITE_COILS) :
    (m.modbus_write env w a q f value).2.1 = { m with _msg_id := (m._msg_id + 1) % 2 ^ 32 } := by
  rcases hf with h | h | h | h
  · rw [modbus_write_single env m w a q f value (Or.inl h)]
    rfl
  · rw [modbus_write_single env m w a q f value (Or.inr h)]
    rfl
  · rw [h, modbus_write_regs]
    rfl
  · rw [h, modbus_write_coils]
    rfl

/-! ## Fields that the methods leave alone -/

theorem fields_modbus_connect (env : Env) (m : modbus) (w : World) :
    (m.modbus_connect env w).2.1.err = m.err
      ∧ (m.modbus_connect env w).2.1.err_no = m.err_no
      ∧ (m.modbus_connect env w).2.1.error_msg = m.error_msg
      ∧ (m.modbus_connect env w).2.1._slaveid = m._slaveid
      ∧ (m.modbus_connect env w).2.1._msg_id = m._msg_id
      ∧ (m.modbus_connect env w).2.1.HOST = m.HOST
      ∧ (m.modbus_connect env w).2.1.PORT = m.PORT := by
  cases hw : env.win32 <;> simp only [modbus.modbus_connect, hw] <;> split_ifs <;> simp

theorem fields_modbus_write_register (env : Env) (m : modbus) (w : World) (a v : Nat) :
    (m.modbus_write_register env w a v).2.1.err = m.err
      ∧ (m.modbus_write_register env w a v).2.1.err_no = m.err_no
      ∧ (m.modbus_write_register env w a v).2.1.error_msg = m.error_msg
      ∧ (m.modbus_write_register env w a v).2.1._slaveid = m._slaveid
      ∧ (m.modbus_write_register env w a v).2.1._socket = m._socket
      ∧ (m.modbus_write_register env w a v).2.1.HOST = m.HOST
      ∧ (m.modbus_write_register env w a v).2.1.PORT = m.PORT := by
  cases hc : m._connected
  · rw [modbus_write_register_disconnected env m w a v hc]
    simp
  · rw [modbus_write_register_connected env m w a v hc]
    simp

theorem error_state_step (env : Env) (s : modbus × World) (op : Op) :
    (step env s op).1.err = s.1.err ∧ (step env s op).1.err_no = s.1.err_no
      ∧ (step env s op).1.error_msg = s.1.error_msg := by
  cases op with
  | connect =>
    obtain ⟨h1, h2, h3, _⟩ := fields_modbus_connect env s.1 s.2
    exact ⟨h1, h2, h3⟩
  | close => exact ⟨rfl, rfl, rfl⟩
  | set_slave_id id => exact ⟨rfl, rfl, rfl⟩
  | write_register a v =>
    obtain ⟨h1, h2, h3, _⟩ := fields_modbus_write_register env s.1 s.2 a v
    exact ⟨h1, h2, h3⟩

theorem error_state_run (env : Env) (ops : List Op) (s : modbus × World) :
    (run env s ops).1.err = s.1.err ∧ (run env s ops).1.err_no = s.1.err_no
      ∧ (run env s ops).1.error_msg = s.1.error_msg := by
  induction ops generalizing s with
  | nil => exact ⟨rfl, rfl, rfl⟩
  | cons op ops ih =>
    obtain ⟨h1, h2, h3⟩ := ih (step env s op)
    obtain ⟨g1, g2, g3⟩ := error_state_step env s op
    rw [run, h1, h2, h3]
    exact ⟨g1, g2, g3⟩

/-! ## The primitive calls of `modbus_connect` -/

theorem anyNewCall_append (w l : World) (P : Call → Nat → Bool) :
    anyNewCall w (w ++ l) P
      = (List.range l.length).any (fun k => match l[k]? with
          | some c => P c (w.length + k)
          | none => false) := by
  unfold anyNewCall
  rw [List.length_append, List.range_add, List.any_append, List.any_map]
  have h1 : (List.range w.length).any
      (fun i => decide (w.length ≤ i) && (match (w ++ l)[i]? with
        | some c => P c i
        | none => false)) = false := by
    rw [List.any_eq_false]
    intro i hi
    have : ¬ (w.length ≤ i) := by
      have := List.mem_range.mp hi
      omega
    simp [this]
  rw [h1, Bool.false_or]
  congr 1
  funext k
  simp [List.getElem?_append_right]

theorem anyNewCall_self (w : World) (P : Call → Nat → Bool) : anyNewCall w w P = false := by
  have h := anyNewCall_append w [] P
  simpa using h

theorem modbus_connect_iff (env : Env) (m : modbus) (w : World) :
    (m.modbus_connect env w).1 = true
      ↔ (m.HOST.isEmpty = false ∧ m.PORT ≠ 0
          ∧ socketCreated env w (m.modbus_connect env w).2.2 = true
          ∧ transportConnected env w (m.modbus_connect env w).2.2 = true) := by
  cases hw : env.win32 <;> simp only [modbus.modbus_connect, hw] <;> split_ifs <;>
    simp_all [socketCreated, transportConnected, WSACleanup, anyNewCall_append, anyNewCall_self,
      List.range_succ]

theorem modbus_connect_iff_answers (env : Env) (m : modbus) (w : World) :
    (env.win32 = false →
        ((m.modbus_connect env w).1 = true
          ↔ (m.HOST.isEmpty = false ∧ m.PORT ≠ 0
              ∧ X_ISVALIDSOCKET env (env.socket w.length) = true
              ∧ X_ISCONNECTSUCCEED env (env.connect (w.length + 3)) = true)))
      ∧ (env.win32 = true →
        ((m.modbus_connect env w).1 = true
          ↔ (m.HOST.isEmpty = false ∧ m.PORT ≠ 0 ∧ env.WSAStartup w.length = 0
              ∧ X_ISVALIDSOCKET env (env.socket (w.length + 1)) = true
              ∧ X_ISCONNECTSUCCEED env (env.connect (w.length + 4)) = true))) := by
  cases hw : env.win32 <;> simp only [modbus.modbus_connect, hw] <;> split_ifs with hbad <;>
    simp_all <;> (intro h1 h2; rcases hbad with h | h <;> simp_all)

theorem modbus_connect_bad_config (env : Env) (m : modbus) (w : World)
    (h : m.HOST.isEmpty = true ∨ m.PORT = 0) : m.modbus_connect env w = (false, m, w) := by
  unfold modbus.modbus_connect
  rw [if_pos h]

/-! ## Additive packing of coils -/

theorem readU16_eq_getD (value : List Nat) (hvs : ∀ v ∈ value, v < 65536) (i : Nat) :
    readU16 value i = value.getD i 0 := by
  unfold readU16
  rw [List.getD_eq_getElem?_getD]
  by_cases h : i < value.length
  · rw [List.getElem?_eq_getElem h]
    exact Nat.mod_eq_of_lt (hvs _ (List.getElem_mem h))
  · rw [List.getElem?_eq_none (by omega)]
    rfl

theorem packSum_eq_sum (value : List Nat) (n j : Nat) :
    packSum value n j
      = Finset.sum ((Finset.range n).filter (fun i => i / 8 = j))
          (fun i => (readU16 value i * 2 ^ (i % 8)) % 256) := by
  rw [Finset.sum_filter]
  induction n with
  | zero => simp [packSum]
  | succ n ih => rw [Finset.sum_range_succ, packSum, ih]

theorem mul_pow_mod_eq_zero (v k : Nat) (h : v % 256 = 0) : (v * 2 ^ k) % 256 = 0 := by
  rw [Nat.mul_mod, h, Nat.zero_mul, Nat.zero_mod]

set_option maxRecDepth 100000 in
theorem lor_add_bit : ∀ x, x < 256 → ∀ r, r < 8 → (x / 2 ^ r) % 2 = 0 →
    x ||| (1 <<< r) = x + 2 ^ r := by
  decide

theorem packSum_lt (value : List Nat) (hb : ∀ i, readU16 value i ≤ 1) (n j : Nat) :
    packSum value n j < 256 := by
  have h0 := coilAt_le value hb n (8 * j + 0)
  have h1 := coilAt_le value hb n (8 * j + 1)
  have h2 := coilAt_le value hb n (8 * j + 2)
  have h3 := coilAt_le value hb n (8 * j + 3)
  have h4 := coilAt_le value hb n (8 * j + 4)
  have h5 := coilAt_le value hb n (8 * j + 5)
  have h6 := coilAt_le value hb n (8 * j + 6)
  have h7 := coilAt_le value hb n (8 * j + 7)
  rw [packSum_bits value hb n j]
  omega

theorem packSum_eq_orPack (value : List Nat) (hb : ∀ i, readU16 value i ≤ 1) (n j : Nat) :
    packSum value n j = orPack value n j := by
  induction n with
  | zero => rfl
  | succ n ih =>
    rw [packSum, orPack, ← ih]
    by_cases h : n / 8 = j
    · rw [if_pos h, if_pos h]
      have hv := hb n
      have hlt := packSum_lt value hb n j
      have hr : n % 8 < 8 := by omega
      have hbit : (packSum value n j / 2 ^ (n % 8)) % 2 = 0 := by
        have e := bitOf_packSum value hb n j (n % 8) hr
        have e2 : 8 * j + n % 8 = n := by omega
        rw [Nat.mod_eq_of_lt hlt, e2] at e
        unfold bitOf at e
        rw [e]
        simp [coilAt]
      rcases Nat.le_one_iff_eq_zero_or_eq_one.mp hv with e | e
      · rw [e]
        simp
      · rw [e]
        have h256 : 2 ^ (n % 8) % 256 = 2 ^ (n % 8) := by
          have : n % 8 = 0 ∨ n % 8 = 1 ∨ n % 8 = 2 ∨ n % 8 = 3 ∨ n % 8 = 4 ∨ n % 8 = 5
              ∨ n % 8 = 6 ∨ n % 8 = 7 := by omega
          rcases this with e | e | e | e | e | e | e | e <;> rw [e] <;> rfl
        rw [Nat.one_mul, h256, show (1 &&& 1 : Nat) = 1 from rfl]
        exact (lor_add_bit _ hlt _ hr hbit).symm
    · rw [if_neg h, if_neg h]
      rfl

/-! ## The claims -/

/-- C1: for every transaction counter, slave id, 16-bit address `a` and 16-bit
value `v`, and for `func` 0x05 or 0x06, `modbus_write` hands the transport
exactly the 12 bytes `[(t>>8)&0xFF, t&0xFF, 0, 0, 0, 6, s mod 256, func, a>>8,
a&0xFF, v>>8, v&0xFF]`; and `modbus_write_register(0, 222)` on a freshly
constructed session with slave id 1 that has connected sends
`[0x00,0x01,0x00,0x00,0x00,0x06,0x01,0x06,0x00,0x00,0x00,0xDE]`. -/
theorem C1_single_write_frame (env : Env) (m : modbus) (w : World) (a q v : Nat) (func : Int)
    (rest : List Nat) (hf : func = 0x05 ∨ func = 0x06) (ha : a < 65536) (hv : v < 65536) :
    (m.modbus_write env w a q func (v :: rest)).2.2
        = w ++ [Call.send m._socket
            [(m._msg_id >>> 8) &&& 0xFF, m._msg_id &&& 0xFF, 0x00, 0x00, 0x00, 0x06,
              (m._slaveid % 256).toNat, func.toNat, a >>> 8, a &&& 0xFF, v >>> 8, v &&& 0xFF]]
      ∧ ∀ (env1 : Env) (host : String) (port : Nat),
          (((modbus.construct host port).modbus_set_slave_id 1).modbus_connect env1 []).1 = true →
          ((((modbus.construct host port).modbus_set_slave_id 1).modbus_connect env1
                []).2.1.modbus_write_register env1
              (((modbus.construct host port).modbus_set_slave_id 1).modbus_connect env1 []).2.2
              0 222).2.2
            = (((modbus.construct host port).modbus_set_slave_id 1).modbus_connect env1 []).2.2
                ++ [Call.send
                    (((modbus.construct host port).modbus_set_slave_id 1).modbus_connect env1
                      []).2.1._socket
                    [0x00, 0x01, 0x00, 0x00, 0x00, 0x06, 0x01, 0x06, 0x00, 0x00, 0x00, 0xDE]] := by
  constructor
  · have hf1 : func = WRITE_COIL ∨ func = WRITE_REG := hf
    have h1 : (a / 256) % 256 = a / 256 := by omega
    have h2 : (v % 65536 / 256) % 256 = v / 256 := by omega
    have h3 : v % 65536 % 256 = v % 256 := by omega
    rw [modbus_write_single env m w a q func (v :: rest) hf1]
    rcases hf with rfl | rfl <;>
      simp [modbus.modbus_send, singleBuf_eq, readU16, uint8_t, shr8, and255, h1, h2, h3]
  · intro env1 host port hc
    obtain ⟨c1, c2, c3⟩ := modbus_connect_true env1 _ [] hc
    rw [modbus_write_register_connected _ _ _ _ _ c1, c2, c3]
    simp [modbus.modbus_set_slave_id, modbus.construct, uint8_t]

/-- C1, at a concrete input: a fresh session for 127.0.0.1:502 and a platform on
which every primitive succeeds. -/
theorem C1_single_write_frame_witness :
    (((0x06 : Int) = 0x05 ∨ (0x06 : Int) = 0x06) ∧ 0 < 65536 ∧ 222 < 65536)
      ∧ ((modbus.construct "127.0.0.1" 502).modbus_write okEnv [] 0 1 0x06 [222]).2.2
          = [Call.send 0 [0, 1, 0, 0, 0, 6, 1, 6, 0, 0, 0, 222]]
      ∧ (((modbus.construct "127.0.0.1" 502).modbus_set_slave_id 1).modbus_connect okEnv
            []).1 = true
      ∧ ((((modbus.construct "127.0.0.1" 502).modbus_set_slave_id 1).modbus_connect okEnv
            []).2.1.modbus_write_register okEnv
          (((modbus.construct "127.0.0.1" 502).modbus_set_slave_id 1).modbus_connect okEnv
            []).2.2 0 222).2.2
          = (((modbus.construct "127.0.0.1" 502).modbus_set_slave_id 1).modbus_connect okEnv
              []).2.2 ++ [Call.send 3 [0, 1, 0, 0, 0, 6, 1, 6, 0, 0, 0, 222]] :=
  ⟨⟨by decide, by decide, by decide⟩,
    (C1_single_write_frame okEnv (modbus.construct "127.0.0.1" 502) [] 0 1 222 0x06 []
      (by decide) (by decide) (by decide)).1,
    by decide,
    (C1_single_write_frame okEnv (modbus.construct "127.0.0.1" 502) [] 0 1 222 0x06 []
      (by decide) (by decide) (by decide)).2 okEnv "127.0.0.1" 502 (by decide)⟩

/-- C2: for Write Multiple Coils (0x0F) with a quantity `q ≥ 1` and `q` coil
values each 0 or 1, the packed payload is the `ceil(q/8)` bytes from frame offset
13 on; for every `i < q`, bit `i mod 8` of byte `i / 8` is coil value `i`; every
bit at a position `≥ q` in the last byte is 0; and the 9 coils
`[1,0,1,1,0,0,0,0,1]` are packed as `[0x0D, 0x01]`. -/
theorem C2_coil_bit_packing (env : Env) (m : modbus) (w : World) (a q : Nat) (vs : List Nat)
    (hq : 1 ≤ q) (hq16 : q < 65536) (hlen : vs.length = q) (hbits : ∀ v ∈ vs, v = 0 ∨ v = 1) :
    (∃ frame : List Nat,
        (m.modbus_write env w a q 0x0F vs).2.2 = w ++ [Call.send m._socket frame]
        ∧ (frame.drop 13).length = (q + 7) / 8
        ∧ (∀ i, i < q → ∃ byte, (frame.drop 13)[i / 8]? = some byte
            ∧ some (bitOf byte (i % 8)) = vs[i]?)
        ∧ (∀ p, q ≤ p → p < 8 * ((q + 7) / 8) → ∃ byte, (frame.drop 13)[p / 8]? = some byte
            ∧ bitOf byte (p % 8) = 0))
      ∧ ∃ frame : List Nat,
        (m.modbus_write env w a 9 0x0F [1, 0, 1, 1, 0, 0, 0, 0, 1]).2.2
            = w ++ [Call.send m._socket frame]
          ∧ frame.drop 13 = [0x0D, 0x01] := by
  have hb := readU16_le_one vs hbits
  constructor
  · refine ⟨coilsBuf env m w a q vs, world_modbus_write_coils env m w a q vs, ?_, ?_, ?_⟩
    · rw [List.length_drop, length_coilsBuf]
      omega
    · intro i hi
      refine ⟨packSum vs q (i / 8) % 256, ?_, ?_⟩
      · rw [List.getElem?_drop, getElem?_coilsBuf, if_pos (by omega)]
        congr 3
        omega
      · rw [bitOf_packSum vs hb q (i / 8) (i % 8) (by omega)]
        have e : 8 * (i / 8) + i % 8 = i := by omega
        have hi2 : i < vs.length := by omega
        have hv := hb i
        rw [e, List.getElem?_eq_getElem hi2]
        unfold coilAt
        rw [if_pos hi]
        unfold readU16 at hv ⊢
        rw [List.getD_eq_getElem?_getD, List.getElem?_eq_getElem hi2] at hv ⊢
        simp only [Option.getD_some] at hv ⊢
        rcases hbits _ (List.getElem_mem hi2) with e1 | e1 <;> simp [e1]
    · intro p hp1 hp2
      refine ⟨packSum vs q (p / 8) % 256, ?_, ?_⟩
      · rw [List.getElem?_drop, getElem?_coilsBuf, if_pos (by omega)]
        congr 3
        omega
      · rw [bitOf_packSum vs hb q (p / 8) (p % 8) (by omega)]
        unfold coilAt
        rw [if_neg (by omega)]
  · refine ⟨coilsBuf env m w a 9 [1, 0, 1, 1, 0, 0, 0, 0, 1], world_modbus_write_coils _ _ _ _ _ _,
      ?_⟩
    apply List.ext_getElem?
    intro i
    rw [List.getElem?_drop, getElem?_coilsBuf]
    by_cases h0 : i = 0
    · subst h0
      rw [if_pos (by omega)]
      decide
    · by_cases h1 : i = 1
      · subst h1
        rw [if_pos (by omega)]
        decide
      · rw [if_neg (by omega), coilsHead_eq]
        have h2 : 2 ≤ i := by omega
        obtain ⟨k, rfl⟩ : ∃ k, i = k + 2 := ⟨i - 2, by omega⟩
        simp [junk]
        omega

/-- C2, at a concrete input: the nine coils `[1,0,1,1,0,0,0,0,1]` on a fresh
session. -/
theorem C2_coil_bit_packing_witness :
    (1 ≤ 9 ∧ 9 < 65536 ∧ [1, 0, 1, 1, 0, 0, 0, 0, 1].length = 9
        ∧ ∀ v ∈ [1, 0, 1, 1, 0, 0, 0, 0, 1], v = 0 ∨ v = 1)
      ∧ ((∃ frame : List Nat,
          ((modbus.construct "127.0.0.1" 502).modbus_write okEnv [] 0 9 0x0F
              [1, 0, 1, 1, 0, 0, 0, 0, 1]).2.2 = [] ++ [Call.send 0 frame]
          ∧ (frame.drop 13).length = (9 + 7) / 8
          ∧ (∀ i, i < 9 → ∃ byte, (frame.drop 13)[i / 8]? = some byte
              ∧ some (bitOf byte (i % 8)) = [1, 0, 1, 1, 0, 0, 0, 0, 1][i]?)
          ∧ (∀ p, 9 ≤ p → p < 8 * ((9 + 7) / 8) → ∃ byte, (frame.drop 13)[p / 8]? = some byte
              ∧ bitOf byte (p % 8) = 0))
        ∧ ∃ frame : List Nat,
          ((modbus.construct "127.0.0.1" 502).modbus_write okEnv [] 0 9 0x0F
              [1, 0, 1, 1, 0, 0, 0, 0, 1]).2.2 = [] ++ [Call.send 0 frame]
            ∧ frame.drop 13 = [0x0D, 0x01]) :=
  ⟨⟨by decide, by decide, by decide, by decide⟩,
    C2_coil_bit_packing okEnv (modbus.construct "127.0.0.1" 502) [] 0 9
      [1, 0, 1, 1, 0, 0, 0, 0, 1] (by decide) (by decide) (by decide) (by decide)⟩

/-- C3: for each of the four write function codes and every quantity the Modbus
specification allows (1 for the single writes, 1..123 registers, 1..1968 coils),
the number of bytes handed to the transport is the table value (12, 12,
13 + 2*q, 13 + ceil(q/8)) and the big-endian length field in bytes 4-5 equals
that total frame length minus 6. -/
theorem C3_frame_length (env : Env) (m : modbus) (w : World) (a q : Nat) (func : Int)
    (vs : List Nat) (_hlen : vs.length = q)
    (hf : (func = 0x05 ∧ q = 1) ∨ (func = 0x06 ∧ q = 1) ∨ (func = 0x10 ∧ 1 ≤ q ∧ q ≤ 123)
      ∨ (func = 0x0F ∧ 1 ≤ q ∧ q ≤ 1968)) :
    ∃ frame : List Nat,
      (m.modbus_write env w a q func vs).2.2 = w ++ [Call.send m._socket frame]
      ∧ frame.length
          = (if func = 0x05 ∨ func = 0x06 then 12
             else if func = 0x10 then 13 + 2 * q else 13 + (q + 7) / 8)
      ∧ be16 frame 4 = frame.length - 6 := by
  rcases hf with ⟨rfl, _⟩ | ⟨rfl, _⟩ | ⟨rfl, h1, h2⟩ | ⟨rfl, h1, h2⟩
  · refine ⟨_, world_modbus_write_single env m w a q 0x05 vs (Or.inl rfl), ?_, ?_⟩
    · simp [singleBuf_eq]
    · rw [be16_singleBuf_4]
      simp [singleBuf_eq]
  · refine ⟨_, world_modbus_write_single env m w a q 0x06 vs (Or.inr rfl), ?_, ?_⟩
    · simp [singleBuf_eq]
    · rw [be16_singleBuf_4]
      simp [singleBuf_eq]
  · refine ⟨_, world_modbus_write_regs env m w a q vs, ?_, ?_⟩
    · rw [length_regsBuf]
      simp
    · rw [be16_regsBuf_4, length_regsBuf]
      omega
  · refine ⟨_, world_modbus_write_coils env m w a q vs, ?_, ?_⟩
    · rw [length_coilsBuf]
      have c1 : ¬ ((15 : Int) = 5 ∨ (15 : Int) = 6) := by decide
      have c2 : ¬ ((15 : Int) = 16) := by decide
      rw [if_neg c1, if_neg c2]
      omega
    · rw [be16_coilsBuf_4, length_coilsBuf]
      omega

/-- C3, at a concrete input: 17 coils on a fresh session. -/
theorem C3_frame_length_witness :
    ((List.replicate 17 1).length = 17
        ∧ (((0x0F : Int) = 0x05 ∧ 17 = 1) ∨ ((0x0F : Int) = 0x06 ∧ 17 = 1)
          ∨ ((0x0F : Int) = 0x10 ∧ 1 ≤ 17 ∧ 17 ≤ 123) ∨ ((0x0F : Int) = 0x0F ∧ 1 ≤ 17 ∧ 17 ≤ 1968)))
      ∧ ∃ frame : List Nat,
        ((modbus.construct "127.0.0.1" 502).modbus_write okEnv [] 0 17 0x0F
            (List.replicate 17 1)).2.2 = [] ++ [Call.send 0 frame]
        ∧ frame.length
            = (if (0x0F : Int) = 0x05 ∨ (0x0F : Int) = 0x06 then 12
               else if (0x0F : Int) = 0x10 then 13 + 2 * 17 else 13 + (17 + 7) / 8)
        ∧ be16 frame 4 = frame.length - 6 :=
  ⟨⟨by decide, by decide⟩,
    C3_frame_length okEnv (modbus.construct "127.0.0.1" 502) [] 0 17 0x0F (List.replicate 17 1)
      (by decide) (by decide)⟩

/-- C4 as stated fails: Write Multiple Registers with quantity 125 yields a frame of
263 bytes, 257 of them from byte 6 on, while bytes 4-5 read 1; and with quantity
128 the byte-count at offset 12 reads 0, not 256. -/
theorem C4_length_field_counterexample :
    (∃ frame : List Nat,
        ((modbus.construct "127.0.0.1" 502).modbus_write okEnv [] 0 125 0x10
            (List.replicate 125 0)).2.2 = [Call.send 0 frame]
        ∧ frame.length - 6 = 257 ∧ be16 frame 4 = 1 ∧ be16 frame 4 ≠ frame.length - 6)
      ∧ ∃ frame : List Nat,
        ((modbus.construct "127.0.0.1" 502).modbus_write okEnv [] 0 128 0x10
            (List.replicate 128 0)).2.2 = [Call.send 0 frame]
        ∧ frame[12]? = some 0 ∧ frame[12]? ≠ some (2 * 128) := by
  constructor
  · refine ⟨_, world_modbus_write_regs okEnv _ [] 0 125 _, ?_, ?_, ?_⟩
    · rw [length_regsBuf]
    · rw [be16_regsBuf_4]
    · rw [be16_regsBuf_4, length_regsBuf]
      decide
  · refine ⟨_, world_modbus_write_regs okEnv _ [] 0 128 _, ?_, ?_⟩
    · rw [getElem?_regsBuf_header _ _ _ _ _ _ 12 (by omega)]
      rfl
    · rw [getElem?_regsBuf_header _ _ _ _ _ _ 12 (by omega)]
      decide

/-- C4, amended: for every function code and every 16-bit quantity `q`, frame
byte 4 is 0 and byte 5 is the low 8 bits of 6 (single writes), `7 + 2*q` (Write
Multiple Registers) or `7 + ceil(q/8)` (Write Multiple Coils), and the byte-count
at offset 12 is the low 8 bits of `2*q`, respectively `ceil(q/8)`.  Hence the
length field equals the number of frame bytes from byte 6 on for the single
writes, for `q ≤ 124` registers and for `1 ≤ q ≤ 1984` coils, and the byte-count
equals `2*q` for `q ≤ 127` registers, `ceil(q/8)` for `q ≤ 2040` coils. -/
theorem C4_length_field_low_byte (env : Env) (m : modbus) (w : World) (a q : Nat) (func : Int)
    (vs : List Nat) (_hq : q < 65536) (_hlen : vs.length = q)
    (hf : func = 0x05 ∨ func = 0x06 ∨ func = 0x10 ∨ func = 0x0F) :
    ∃ frame : List Nat,
      (m.modbus_write env w a q func vs).2.2 = w ++ [Call.send m._socket frame]
      ∧ frame[4]? = some 0
      ∧ frame[5]? = some ((if func = 0x05 ∨ func = 0x06 then 6
                            else if func = 0x10 then 7 + 2 * q else 7 + (q + 7) / 8) % 256)
      ∧ (func = 0x10 → frame[12]? = some ((2 * q) % 256))
      ∧ (func = 0x0F → frame[12]? = some (((q + 7) / 8) % 256))
      ∧ (func = 0x05 ∨ func = 0x06 → be16 frame 4 = 6 ∧ frame.length - 6 = 6)
      ∧ (func = 0x10 → q ≤ 124 → be16 frame 4 = 7 + 2 * q ∧ frame.length - 6 = 7 + 2 * q)
      ∧ (func = 0x0F → 1 ≤ q → q ≤ 1984 →
          be16 frame 4 = 7 + (q + 7) / 8 ∧ frame.length - 6 = 7 + (q + 7) / 8)
      ∧ (func = 0x10 → q ≤ 127 → frame[12]? = some (2 * q))
      ∧ (func = 0x0F → q ≤ 2040 → frame[12]? = some ((q + 7) / 8)) := by
  rcases hf with rfl | rfl | rfl | rfl
  · refine ⟨_, world_modbus_write_single env m w a q 0x05 vs (Or.inl rfl), ?_⟩
    simp [singleBuf_eq, be16]
  · refine ⟨_, world_modbus_write_single env m w a q 0x06 vs (Or.inr rfl), ?_⟩
    simp [singleBuf_eq, be16]
  · refine ⟨_, world_modbus_write_regs env m w a q vs, ?_⟩
    have c1 : ¬ ((16 : Int) = 5 ∨ (16 : Int) = 6) := by decide
    have c2 : ¬ ((16 : Int) = 15) := by decide
    rw [be16_regsBuf_4, length_regsBuf, getElem?_regsBuf_header _ _ _ _ _ _ 4 (by omega),
      getElem?_regsBuf_header _ _ _ _ _ _ 5 (by omega),
      getElem?_regsBuf_header _ _ _ _ _ _ 12 (by omega)]
    refine ⟨rfl, by simp, fun _ => rfl, fun h => absurd h c2, fun h => absurd h c1, ?_,
      fun h => absurd h c2, ?_, fun h => absurd h c2⟩
    · intro _ h
      constructor <;> omega
    · intro _ h
      have : 2 * q % 256 = 2 * q := by omega
      simp [this]
  · refine ⟨_, world_modbus_write_coils env m w a q vs, ?_⟩
    have c1 : ¬ ((15 : Int) = 5 ∨ (15 : Int) = 6) := by decide
    have c2 : ¬ ((15 : Int) = 16) := by decide
    rw [be16_coilsBuf_4, length_coilsBuf, getElem?_coilsBuf_header _ _ _ _ _ _ 4 (by omega),
      getElem?_coilsBuf_header _ _ _ _ _ _ 5 (by omega),
      getElem?_coilsBuf_header _ _ _ _ _ _ 12 (by omega)]
    refine ⟨rfl, by simp, fun h => absurd h c2, fun _ => rfl, fun h => absurd h c1,
      fun h => absurd h c2, ?_, fun h => absurd h c2, ?_⟩
    · intro _ h1 h2
      constructor <;> omega
    · intro _ h
      have : (q + 7) / 8 % 256 = (q + 7) / 8 := by omega
      simp [this]

/-- C4 amended, at a concrete input: 124 registers on a fresh session. -/
theorem C4_length_field_low_byte_witness :
    (124 < 65536 ∧ (List.replicate 124 7).length = 124
        ∧ ((0x10 : Int) = 0x05 ∨ (0x10 : Int) = 0x06 ∨ (0x10 : Int) = 0x10 ∨ (0x10 : Int) = 0x0F))
      ∧ ∃ frame : List Nat,
        ((modbus.construct "127.0.0.1" 502).modbus_write okEnv [] 0 124 0x10
            (List.replicate 124 7)).2.2 = [] ++ [Call.send 0 frame]
        ∧ frame[4]? = some 0
        ∧ frame[5]? = some ((if (0x10 : Int) = 0x05 ∨ (0x10 : Int) = 0x06 then 6
                              else if (0x10 : Int) = 0x10 then 7 + 2 * 124
                              else 7 + (124 + 7) / 8) % 256)
        ∧ ((0x10 : Int) = 0x10 → frame[12]? = some ((2 * 124) % 256))
        ∧ ((0x10 : Int) = 0x0F → frame[12]? = some (((124 + 7) / 8) % 256))
        ∧ ((0x10 : Int) = 0x05 ∨ (0x10 : Int) = 0x06 → be16 frame 4 = 6 ∧ frame.length - 6 = 6)
        ∧ ((0x10 : Int) = 0x10 → 124 ≤ 124 →
            be16 frame 4 = 7 + 2 * 124 ∧ frame.length - 6 = 7 + 2 * 124)
        ∧ ((0x10 : Int) = 0x0F → 1 ≤ 124 → 124 ≤ 1984 →
            be16 frame 4 = 7 + (124 + 7) / 8 ∧ frame.length - 6 = 7 + (124 + 7) / 8)
        ∧ ((0x10 : Int) = 0x10 → 124 ≤ 127 → frame[12]? = some (2 * 124))
        ∧ ((0x10 : Int) = 0x0F → 124 ≤ 2040 → frame[12]? = some ((124 + 7) / 8)) :=
  ⟨⟨by decide, by simp, by decide⟩,
    C4_length_field_low_byte okEnv (modbus.construct "127.0.0.1" 502) [] 0 124 0x10
      (List.replicate 124 7) (by decide) (by simp) (by decide)⟩

/-- C5: for Write Multiple Registers (0x10) with every quantity `q` and every
list of `q` 16-bit values, the frame has exactly `13 + 2*q` bytes, bytes 8-9 are
the address big-endian, bytes 10-11 are `q` big-endian, and for every `i < q`
bytes `13 + 2*i` and `14 + 2*i` are the high and the low byte of value `i`. -/
theorem C5_write_registers_frame (env : Env) (m : modbus) (w : World) (a q : Nat)
    (vs : List Nat) (ha : a < 65536) (hq : q < 65536) (hlen : vs.length = q)
    (hvs : ∀ v ∈ vs, v < 65536) :
    ∃ frame : List Nat,
      (m.modbus_write env w a q 0x10 vs).2.2 = w ++ [Call.send m._socket frame]
      ∧ frame.length = 13 + 2 * q
      ∧ frame[8]? = some (a / 256) ∧ frame[9]? = some (a % 256)
      ∧ frame[10]? = some (q / 256) ∧ frame[11]? = some (q % 256)
      ∧ ∀ i (hi : i < vs.length),
          frame[13 + 2 * i]? = some (vs[i] / 256) ∧ frame[14 + 2 * i]? = some (vs[i] % 256) := by
  refine ⟨_, world_modbus_write_regs env m w a q vs, length_regsBuf env m w a q vs, ?_, ?_, ?_, ?_,
    ?_⟩
  · rw [getElem?_regsBuf_header _ _ _ _ _ _ 8 (by omega)]
    have : a / 256 % 256 = a / 256 := by omega
    simp [this]
  · rw [getElem?_regsBuf_header _ _ _ _ _ _ 9 (by omega)]
    simp
  · rw [getElem?_regsBuf_header _ _ _ _ _ _ 10 (by omega)]
    have : q / 256 % 256 = q / 256 := by omega
    simp [this]
  · rw [getElem?_regsBuf_header _ _ _ _ _ _ 11 (by omega)]
    simp
  · intro i hi
    have hv : vs[i] < 65536 := hvs _ (List.getElem_mem hi)
    have hr : readU16 vs i = vs[i] := by
      unfold readU16
      rw [List.getD_eq_getElem?_getD, List.getElem?_eq_getElem hi]
      simp only [Option.getD_some]
      omega
    have e1 : (13 + 2 * i - 13) / 2 = i := by omega
    have e2 : (13 + 2 * i - 13) % 2 = 0 := by omega
    have e3 : (14 + 2 * i - 13) / 2 = i := by omega
    have e4 : ¬ ((14 + 2 * i - 13) % 2 = 0) := by omega
    constructor
    · rw [getElem?_regsBuf, if_pos (by omega), if_pos e2, e1, hr]
      congr 1
      omega
    · rw [getElem?_regsBuf, if_pos (by omega), if_neg e4, e3, hr]

/-- C5, at a concrete input: the two registers `[0x1234, 0xABCD]` at address 0x0102. -/
theorem C5_write_registers_frame_witness :
    (0x0102 < 65536 ∧ 2 < 65536 ∧ [0x1234, 0xABCD].length = 2
        ∧ ∀ v ∈ [0x1234, 0xABCD], v < 65536)
      ∧ ∃ frame : List Nat,
        ((modbus.construct "127.0.0.1" 502).modbus_write okEnv [] 0x0102 2 0x10
            [0x1234, 0xABCD]).2.2 = [] ++ [Call.send 0 frame]
        ∧ frame.length = 13 + 2 * 2
        ∧ frame[8]? = some (0x0102 / 256) ∧ frame[9]? = some (0x0102 % 256)
        ∧ frame[10]? = some (2 / 256) ∧ frame[11]? = some (2 % 256)
        ∧ ∀ i (hi : i < [0x1234, 0xABCD].length),
            frame[13 + 2 * i]? = some ([0x1234, 0xABCD][i] / 256)
              ∧ frame[14 + 2 * i]? = some ([0x1234, 0xABCD][i] % 256) :=
  ⟨⟨by decide, by decide, by decide, by decide⟩,
    C5_write_registers_frame okEnv (modbus.construct "127.0.0.1" 502) [] 0x0102 2
      [0x1234, 0xABCD] (by decide) (by decide) (by decide) (by decide)⟩

/-- C6, the code at quantity 0: Write Multiple Registers hands the transport the
13 bytes header, function code, address, quantity 0, byte-count 0; Write Multiple
Coils hands it 14 bytes, the same 13 (length field 7) followed by one byte that
`modbus_write` never stores, the leftover content of the allocation.  On a fresh
session the same call yields two different frames when only that leftover
content differs. -/
theorem C6_zero_quantity_frames :
    (∀ (env : Env) (m : modbus) (w : World) (a : Nat) (vs : List Nat),
        (m.modbus_write env w a 0 0x10 vs).2.2
            = w ++ [Call.send m._socket
                [(m._msg_id / 256) % 256, m._msg_id % 256, 0, 0, 0, 7, uint8_t m._slaveid, 0x10,
                  (a / 256) % 256, a % 256, 0, 0, 0]]
          ∧ (m.modbus_write env w a 0 0x0F vs).2.2
            = w ++ [Call.send m._socket
                [(m._msg_id / 256) % 256, m._msg_id % 256, 0, 0, 0, 7, uint8_t m._slaveid, 0x0F,
                  (a / 256) % 256, a % 256, 0, 0, 0, env.heap w.length 13 % 256]])
      ∧ ((modbus.construct "127.0.0.1" 502).modbus_write okEnv [] 0 0 0x0F []).2.2
          = [Call.send 0 [0, 1, 0, 0, 0, 7, 1, 0x0F, 0, 0, 0, 0, 0, 0xCD]]
      ∧ ((modbus.construct "127.0.0.1" 502).modbus_write
            { okEnv with heap := fun _ _ => 0 } [] 0 0 0x0F []).2.2
          = [Call.send 0 [0, 1, 0, 0, 0, 7, 1, 0x0F, 0, 0, 0, 0, 0, 0x00]] := by
  refine ⟨?_, by decide, by decide⟩
  intro env m w a vs
  constructor
  · rw [show (m.modbus_write env w a 0 0x10 vs).2.2
        = w ++ [Call.send m._socket (regsBuf env m w a 0 vs)] from
      world_modbus_write_regs env m w a 0 vs]
    simp [regsBuf, regsLoop, regsHead_eq, junk]
  · rw [show (m.modbus_write env w a 0 0x0F vs).2.2
        = w ++ [Call.send m._socket (coilsBuf env m w a 0 vs)] from
      world_modbus_write_coils env m w a 0 vs]
    simp [coilsBuf, coilsLoop, zeroLoop, coilsHead_eq, junk, List.range_succ]

/-- C7: for every sequence of `N` `modbus_write_register` calls on a freshly
constructed session that has connected, whatever the transport's `send` returns,
exactly `N` frames are handed to the transport, the transaction id field (bytes
0-1) of the first frame is 1, the field of frame `k+1` is the field of frame `k`
plus one modulo 2^16, and the counter is `1 + N` modulo 2^32 afterwards. -/
theorem C7_transaction_id_sequence (env : Env) (host : String) (port : Nat)
    (l : List (Nat × Nat))
    (hc : ((modbus.construct host port).modbus_connect env []).1 = true) :
    ∃ frames : List (List Nat),
      (writeRegisters env ((modbus.construct host port).modbus_connect env []).2.1
          ((modbus.construct host port).modbus_connect env []).2.2 l).2
        = ((modbus.construct host port).modbus_connect env []).2.2
            ++ frames.map
              (Call.send ((modbus.construct host port).modbus_connect env []).2.1._socket)
      ∧ frames.length = l.length
      ∧ (0 < l.length → be16 (frames.getD 0 []) 0 = 1)
      ∧ (∀ k, k + 1 < l.length →
          be16 (frames.getD (k + 1) []) 0 = (be16 (frames.getD k []) 0 + 1) % 2 ^ 16)
      ∧ (∀ k, k < l.length → be16 (frames.getD k []) 0 = (1 + k) % 2 ^ 16)
      ∧ (writeRegisters env ((modbus.construct host port).modbus_connect env []).2.1
          ((modbus.construct host port).modbus_connect env []).2.2 l).1._msg_id
        = (1 + l.length) % 2 ^ 32 := by
  obtain ⟨c1, c2, _⟩ := modbus_connect_true env _ [] hc
  have c3 : ((modbus.construct host port).modbus_connect env []).2.1._msg_id = 1 := by
    rw [c2]
    rfl
  obtain ⟨frames, h1, h2, h3, h4⟩ :=
    writeRegisters_connected env l _ ((modbus.construct host port).modbus_connect env []).2.2 c1
      (by rw [c3]; norm_num)
  rw [c3] at h3 h4
  refine ⟨frames, h1, h2, ?_, ?_, ?_, h4⟩
  · intro h0
    rw [h3 0 h0]
  · intro k hk
    rw [h3 (k + 1) hk, h3 k (by omega)]
    omega
  · intro k hk
    rw [h3 k hk]
    norm_num

/-- C7, at a concrete input: three writes after a successful connect. -/
theorem C7_transaction_id_sequence_witness :
    ((modbus.construct "127.0.0.1" 502).modbus_connect okEnv []).1 = true
      ∧ ∃ frames : List (List Nat),
        (writeRegisters okEnv ((modbus.construct "127.0.0.1" 502).modbus_connect okEnv []).2.1
            ((modbus.construct "127.0.0.1" 502).modbus_connect okEnv []).2.2
            [(0, 222), (1, 7), (2, 9)]).2
          = ((modbus.construct "127.0.0.1" 502).modbus_connect okEnv []).2.2
              ++ frames.map
                (Call.send ((modbus.construct "127.0.0.1" 502).modbus_connect okEnv []).2.1._socket)
        ∧ frames.length = [((0 : Nat), (222 : Nat)), (1, 7), (2, 9)].length
        ∧ (0 < [((0 : Nat), (222 : Nat)), (1, 7), (2, 9)].length → be16 (frames.getD 0 []) 0 = 1)
        ∧ (∀ k, k + 1 < [((0 : Nat), (222 : Nat)), (1, 7), (2, 9)].length →
            be16 (frames.getD (k + 1) []) 0 = (be16 (frames.getD k []) 0 + 1) % 2 ^ 16)
        ∧ (∀ k, k < [((0 : Nat), (222 : Nat)), (1, 7), (2, 9)].length →
            be16 (frames.getD k []) 0 = (1 + k) % 2 ^ 16)
        ∧ (writeRegisters okEnv ((modbus.construct "127.0.0.1" 502).modbus_connect okEnv []).2.1
            ((modbus.construct "127.0.0.1" 502).modbus_connect okEnv []).2.2
            [(0, 222), (1, 7), (2, 9)]).1._msg_id
          = (1 + [((0 : Nat), (222 : Nat)), (1, 7), (2, 9)].length) % 2 ^ 32 :=
  ⟨by decide,
    C7_transaction_id_sequence okEnv "127.0.0.1" 502 [(0, 222), (1, 7), (2, 9)] (by decide)⟩

/-- C8, the guard: on every session whose `connected` flag is false, for every
address and value, `modbus_write_register` returns 0, hands nothing to the
transport (the log of primitive calls is unchanged) and leaves every session
field, the transaction counter included, unchanged. -/
theorem C8_write_register_guard (env : Env) (m : modbus) (w : World) (a v : Nat)
    (hc : m._connected = false) :
    m.modbus_write_register env w a v = (0, m, w)
      ∧ framesSent (m.modbus_write_register env w a v).2.2 = framesSent w := by
  rw [modbus_write_register_disconnected env m w a v hc]
  exact ⟨rfl, rfl⟩

/-- C8, at a concrete input: a write on a freshly constructed session. -/
theorem C8_write_register_guard_witness :
    (modbus.construct "127.0.0.1" 502)._connected = false
      ∧ (modbus.construct "127.0.0.1" 502).modbus_write_register okEnv [] 0 222
          = (0, modbus.construct "127.0.0.1" 502, [])
      ∧ framesSent ((modbus.construct "127.0.0.1" 502).modbus_write_register okEnv [] 0 222).2.2
          = framesSent [] :=
  ⟨by decide, C8_write_register_guard okEnv (modbus.construct "127.0.0.1" 502) [] 0 222 (by decide)⟩

/-- C9 as stated fails: after connect and close on a fresh session,
`is_connected()` is still true, and a following `modbus_write_register(0, 222)`
hands a 12-byte frame to `send` on the handle that was closed. -/
theorem C9_closed_session_counterexample :
    (run okEnv (modbus.construct "127.0.0.1" 502, []) [Op.connect, Op.close]).1.is_connected = true
      ∧ (run okEnv (modbus.construct "127.0.0.1" 502, [])
            [Op.connect, Op.close, Op.write_register 0 222]).2
          = [Call.socket, Call.setsockopt 3 SockOpt.SO_SNDTIMEO, Call.setsockopt 3 SockOpt.SO_RCVTIMEO,
              Call.connect 3 ⟨2, 0x7F000001, 0xF601⟩, Call.close 3,
              Call.send 3 [0, 1, 0, 0, 0, 6, 1, 6, 0, 0, 0, 0xDE]] := by
  constructor <;> decide

/-- C9, amended: `modbus_close` does not clear `connected`.  Along every sequence
of session operations on a fresh session, `is_connected()` is true exactly when
some `modbus_connect` of the sequence has succeeded, whether or not a close
followed; as long as none has succeeded no frame is handed to the transport; and
on a connected session a `modbus_write_register` after `modbus_close` hands the
transport one 12-byte frame on the session's handle. -/
theorem C9_close_keeps_connected (env : Env) (host : String) (port : Nat) (ops : List Op)
    (m : modbus) (w : World) (a v : Nat) (hc : m._connected = true) :
    (run env (modbus.construct host port, []) ops).1.is_connected
        = connectSucceeded env (modbus.construct host port, []) ops
      ∧ (connectSucceeded env (modbus.construct host port, []) ops = false →
          framesSent (run env (modbus.construct host port, []) ops).2 = [])
      ∧ (step env (m, w) Op.close).1.is_connected = true
      ∧ ∃ frame : List Nat, frame.length = 12
          ∧ (run env (m, w) [Op.close, Op.write_register a v]).2
            = m.modbus_close env w ++ [Call.send m._socket frame] := by
  refine ⟨?_, ?_, hc, ?_⟩
  · rw [modbus.is_connected, connected_run]
    rfl
  · intro hs
    rw [framesSent_run_disconnected env ops _ rfl hs]
    rfl
  · refine ⟨[(m._msg_id / 256) % 256, m._msg_id % 256, 0, 0, 0, 6, uint8_t m._slaveid, 6,
      (a / 256) % 256, a % 256, ((v % 65536) / 256) % 256, (v % 65536) % 256], rfl, ?_⟩
    simp only [run, step]
    rw [modbus_write_register_connected env m _ a v hc]

/-- C9 amended, at a concrete input: connect, close, write on a fresh session. -/
theorem C9_close_keeps_connected_witness :
    ((modbus.construct "127.0.0.1" 502).modbus_connect okEnv []).2.1._connected = true
      ∧ (run okEnv (modbus.construct "127.0.0.1" 502, []) [Op.connect, Op.close]).1.is_connected
          = connectSucceeded okEnv (modbus.construct "127.0.0.1" 502, []) [Op.connect, Op.close]
      ∧ (connectSucceeded okEnv (modbus.construct "127.0.0.1" 502, []) [Op.connect, Op.close]
            = false →
          framesSent (run okEnv (modbus.construct "127.0.0.1" 502, []) [Op.connect, Op.close]).2
            = [])
      ∧ (step okEnv (((modbus.construct "127.0.0.1" 502).modbus_connect okEnv []).2.1,
            ((modbus.construct "127.0.0.1" 502).modbus_connect okEnv []).2.2)
            Op.close).1.is_connected = true
      ∧ ∃ frame : List Nat, frame.length = 12
          ∧ (run okEnv (((modbus.construct "127.0.0.1" 502).modbus_connect okEnv []).2.1,
                ((modbus.construct "127.0.0.1" 502).modbus_connect okEnv []).2.2)
              [Op.close, Op.write_register 0 222]).2
            = ((modbus.construct "127.0.0.1" 502).modbus_connect okEnv []).2.1.modbus_close okEnv
                ((modbus.construct "127.0.0.1" 502).modbus_connect okEnv []).2.2
              ++ [Call.send ((modbus.construct "127.0.0.1" 502).modbus_connect okEnv
                    []).2.1._socket frame] :=
  ⟨by decide,
    C9_close_keeps_connected okEnv "127.0.0.1" 502 [Op.connect, Op.close]
      ((modbus.construct "127.0.0.1" 502).modbus_connect okEnv []).2.1
      ((modbus.construct "127.0.0.1" 502).modbus_connect okEnv []).2.2 0 222 (by decide)⟩

/-- C10: for every 32-bit transaction counter value `t` and each write function
code, frame bytes 0 and 1 are `(t >> 8) mod 256` and `t mod 256`, the big-endian
encoding of `t mod 65536`; `t` is the counter before the increment made for that
send; and a counter with the same low 16 bits yields the same bytes handed to
the transport, so bits 16..31 of `t` influence no frame byte. -/
theorem C10_transaction_id_low16 (env : Env) (m : modbus) (w : World) (a q : Nat) (func : Int)
    (vs : List Nat) (t2 : Nat) (_ht : m._msg_id < 2 ^ 32) (_ht2 : t2 < 2 ^ 32)
    (hf : func = 0x05 ∨ func = 0x06 ∨ func = 0x10 ∨ func = 0x0F)
    (hlow : t2 % 65536 = m._msg_id % 65536) :
    (∃ frame : List Nat,
        (m.modbus_write env w a q func vs).2.2 = w ++ [Call.send m._socket frame]
        ∧ frame[0]? = some ((m._msg_id >>> 8) % 256)
        ∧ frame[1]? = some (m._msg_id % 256)
        ∧ be16 frame 0 = m._msg_id % 65536)
      ∧ (m.modbus_write env w a q func vs).2.1._msg_id = (m._msg_id + 1) % 2 ^ 32
      ∧ (modbus.modbus_write env { m with _msg_id := t2 } w a q func vs).2.2
          = (m.modbus_write env w a q func vs).2.2 := by
  refine ⟨?_, ?_, world_modbus_write_low16 env m t2 w a q func vs hlow⟩
  · rcases hf with rfl | rfl | rfl | rfl
    · refine ⟨_, world_modbus_write_single env m w a q 0x05 vs (Or.inl rfl), ?_⟩
      simp only [singleBuf_eq, be16, shr8]
      refine ⟨rfl, rfl, ?_⟩
      simp only [List.getD_cons_zero, List.getD_cons_succ]
      omega
    · refine ⟨_, world_modbus_write_single env m w a q 0x06 vs (Or.inr rfl), ?_⟩
      simp only [singleBuf_eq, be16, shr8]
      refine ⟨rfl, rfl, ?_⟩
      simp only [List.getD_cons_zero, List.getD_cons_succ]
      omega
    · refine ⟨_, world_modbus_write_regs env m w a q vs, ?_⟩
      simp only [be16, List.getD_eq_getElem?_getD, shr8]
      rw [getElem?_regsBuf_header _ _ _ _ _ _ 0 (by omega),
        getElem?_regsBuf_header _ _ _ _ _ _ (0 + 1) (by omega)]
      refine ⟨rfl, rfl, ?_⟩
      simp only [List.getElem?_cons_zero, List.getElem?_cons_succ, Option.getD_some]
      omega
    · refine ⟨_, world_modbus_write_coils env m w a q vs, ?_⟩
      simp only [be16, List.getD_eq_getElem?_getD, shr8]
      rw [getElem?_coilsBuf_header _ _ _ _ _ _ 0 (by omega),
        getElem?_coilsBuf_header _ _ _ _ _ _ (0 + 1) (by omega)]
      refine ⟨rfl, rfl, ?_⟩
      simp only [List.getElem?_cons_zero, List.getElem?_cons_succ, Option.getD_some]
      omega
  · rw [session_modbus_write env m w a q func vs (by
      rcases hf with h | h | h | h
      · exact Or.inl h
      · exact Or.inr (Or.inl h)
      · exact Or.inr (Or.inr (Or.inl h))
      · exact Or.inr (Or.inr (Or.inr h)))]

/-- C10, at a concrete input: the counters 1 and 65537 on a fresh session, nine
coils. -/
theorem C10_transaction_id_low16_witness :
    ((modbus.construct "127.0.0.1" 502)._msg_id < 2 ^ 32 ∧ 65537 < 2 ^ 32
        ∧ ((0x0F : Int) = 0x05 ∨ (0x0F : Int) = 0x06 ∨ (0x0F : Int) = 0x10 ∨ (0x0F : Int) = 0x0F)
        ∧ 65537 % 65536 = (modbus.construct "127.0.0.1" 502)._msg_id % 65536)
      ∧ (∃ frame : List Nat,
          ((modbus.construct "127.0.0.1" 502).modbus_write okEnv [] 0 9 0x0F
              [1, 0, 1, 1, 0, 0, 0, 0, 1]).2.2
            = [] ++ [Call.send (modbus.construct "127.0.0.1" 502)._socket frame]
          ∧ frame[0]? = some (((modbus.construct "127.0.0.1" 502)._msg_id >>> 8) % 256)
          ∧ frame[1]? = some ((modbus.construct "127.0.0.1" 502)._msg_id % 256)
          ∧ be16 frame 0 = (modbus.construct "127.0.0.1" 502)._msg_id % 65536)
      ∧ ((modbus.construct "127.0.0.1" 502).modbus_write okEnv [] 0 9 0x0F
            [1, 0, 1, 1, 0, 0, 0, 0, 1]).2.1._msg_id
          = ((modbus.construct "127.0.0.1" 502)._msg_id + 1) % 2 ^ 32
      ∧ (modbus.modbus_write okEnv { modbus.construct "127.0.0.1" 502 with _msg_id := 65537 } []
            0 9 0x0F [1, 0, 1, 1, 0, 0, 0, 0, 1]).2.2
          = ((modbus.construct "127.0.0.1" 502).modbus_write okEnv [] 0 9 0x0F
              [1, 0, 1, 1, 0, 0, 0, 0, 1]).2.2 :=
  ⟨⟨by decide, by decide, by decide, by decide⟩,
    C10_transaction_id_low16 okEnv (modbus.construct "127.0.0.1" 502) [] 0 9 0x0F
      [1, 0, 1, 1, 0, 0, 0, 0, 1] 65537 (by decide) (by decide) (by decide) (by decide)⟩

/-- C11, header invariants: for each of the four write function codes and every
counter, slave id, address, quantity and values, the frame `modbus_write` hands
to the transport has bytes 2 and 3 (protocol id) equal to 0x00 and byte 7 equal
to the requested function code. -/
theorem C11_header_invariants (env : Env) (m : modbus) (w : World) (a q : Nat) (func : Int)
    (vs : List Nat) (hf : func = 0x05 ∨ func = 0x06 ∨ func = 0x10 ∨ func = 0x0F) :
    ∃ frame : List Nat,
      (m.modbus_write env w a q func vs).2.2 = w ++ [Call.send m._socket frame]
      ∧ frame[2]? = some 0x00 ∧ frame[3]? = some 0x00 ∧ be16 frame 2 = 0x0000
      ∧ frame[7]? = some func.toNat := by
  rcases hf with rfl | rfl | rfl | rfl
  · refine ⟨_, world_modbus_write_single env m w a q 0x05 vs (Or.inl rfl), ?_⟩
    simp [singleBuf_eq, be16, uint8_t]
  · refine ⟨_, world_modbus_write_single env m w a q 0x06 vs (Or.inr rfl), ?_⟩
    simp [singleBuf_eq, be16, uint8_t]
  · refine ⟨_, world_modbus_write_regs env m w a q vs, ?_⟩
    simp only [be16, List.getD_eq_getElem?_getD]
    rw [getElem?_regsBuf_header _ _ _ _ _ _ 2 (by omega),
      getElem?_regsBuf_header _ _ _ _ _ _ 3 (by omega),
      getElem?_regsBuf_header _ _ _ _ _ _ 7 (by omega)]
    simp
  · refine ⟨_, world_modbus_write_coils env m w a q vs, ?_⟩
    simp only [be16, List.getD_eq_getElem?_getD]
    rw [getElem?_coilsBuf_header _ _ _ _ _ _ 2 (by omega),
      getElem?_coilsBuf_header _ _ _ _ _ _ 3 (by omega),
      getElem?_coilsBuf_header _ _ _ _ _ _ 7 (by omega)]
    simp

/-- C11, at a concrete input: 17 registers on a fresh session. -/
theorem C11_header_invariants_witness :
    ((0x10 : Int) = 0x05 ∨ (0x10 : Int) = 0x06 ∨ (0x10 : Int) = 0x10 ∨ (0x10 : Int) = 0x0F)
      ∧ ∃ frame : List Nat,
        ((modbus.construct "127.0.0.1" 502).modbus_write okEnv [] 7 17 0x10
            (List.replicate 17 0xBEEF)).2.2
          = [] ++ [Call.send (modbus.construct "127.0.0.1" 502)._socket frame]
        ∧ frame[2]? = some 0x00 ∧ frame[3]? = some 0x00 ∧ be16 frame 2 = 0x0000
        ∧ frame[7]? = some (0x10 : Int).toNat :=
  ⟨by decide,
    C11_header_invariants okEnv (modbus.construct "127.0.0.1" 502) [] 7 17 0x10
      (List.replicate 17 0xBEEF) (by decide)⟩

/-- C13: `modbus_close` changes no session field.  For every session state the
connected flag, the error fields, the transaction counter, the slave id, host,
port and socket handle after the call are those before it, so two calls leave
the same session state as one; the log shows each call handing the same handle
to the transport's close. -/
theorem C13_close_changes_no_field (env : Env) (m : modbus) (w : World) :
    (step env (m, w) Op.close).1 = m
      ∧ (step env (m, w) Op.close).1._connected = m._connected
      ∧ (step env (m, w) Op.close).1.err = m.err
      ∧ (step env (m, w) Op.close).1.err_no = m.err_no
      ∧ (step env (m, w) Op.close).1.error_msg = m.error_msg
      ∧ (step env (m, w) Op.close).1._msg_id = m._msg_id
      ∧ (step env (m, w) Op.close).1._slaveid = m._slaveid
      ∧ (step env (m, w) Op.close).1.HOST = m.HOST
      ∧ (step env (m, w) Op.close).1.PORT = m.PORT
      ∧ (step env (m, w) Op.close).1._socket = m._socket
      ∧ (run env (m, w) [Op.close, Op.close]).1 = (run env (m, w) [Op.close]).1
      ∧ (run env (m, w) [Op.close, Op.close]).2
          = WSACleanup env (WSACleanup env (w ++ [Call.close m._socket])
              ++ [Call.close m._socket]) :=
  ⟨rfl, rfl, rfl, rfl, rfl, rfl, rfl, rfl, rfl, rfl, rfl, rfl⟩

/-- C14: for every `int` id and every session state, `modbus_set_slave_id(id)`
changes only the slave id field, and the frame of every write built afterwards
carries in byte 6 the value `id mod 256`, the low 8 bits of `id`, also for ids
above 255 or negative; no id is rejected. -/
theorem C14_slave_id_byte (env : Env) (m : modbus) (w : World) (a q : Nat) (func : Int)
    (vs : List Nat) (id : Int) (hf : func = 0x05 ∨ func = 0x06 ∨ func = 0x10 ∨ func = 0x0F) :
    m.modbus_set_slave_id id = { m with _slaveid := id }
      ∧ (∃ frame : List Nat,
          ((m.modbus_set_slave_id id).modbus_write env w a q func vs).2.2
            = w ++ [Call.send m._socket frame]
          ∧ frame[6]? = some (id % 256).toNat)
      ∧ ((m.modbus_set_slave_id id).modbus_connect env w).2.1._slaveid = id
      ∧ ((m.modbus_set_slave_id id).modbus_write_register env w a q).2.1._slaveid = id := by
  refine ⟨rfl, ?_, (fields_modbus_connect env _ w).2.2.2.1,
    (fields_modbus_write_register env _ w a q).2.2.2.1⟩
  rcases hf with rfl | rfl | rfl | rfl
  · refine ⟨_, world_modbus_write_single env _ w a q 0x05 vs (Or.inl rfl), ?_⟩
    simp [singleBuf_eq, uint8_t, modbus.modbus_set_slave_id]
  · refine ⟨_, world_modbus_write_single env _ w a q 0x06 vs (Or.inr rfl), ?_⟩
    simp [singleBuf_eq, uint8_t, modbus.modbus_set_slave_id]
  · refine ⟨_, world_modbus_write_regs env _ w a q vs, ?_⟩
    rw [getElem?_regsBuf_header _ _ _ _ _ _ 6 (by omega)]
    rfl
  · refine ⟨_, world_modbus_write_coils env _ w a q vs, ?_⟩
    rw [getElem?_coilsBuf_header _ _ _ _ _ _ 6 (by omega)]
    rfl

/-- C14, at a concrete input: the ids 300 and -1 give the bytes 44 and 255. -/
theorem C14_slave_id_byte_witness :
    (((0x06 : Int) = 0x05 ∨ (0x06 : Int) = 0x06 ∨ (0x06 : Int) = 0x10 ∨ (0x06 : Int) = 0x0F)
        ∧ ((300 : Int) % 256).toNat = 44 ∧ ((-1 : Int) % 256).toNat = 255)
      ∧ (∃ frame : List Nat,
          (((modbus.construct "127.0.0.1" 502).modbus_set_slave_id 300).modbus_write okEnv [] 0
              1 0x06 [222]).2.2
            = [] ++ [Call.send (modbus.construct "127.0.0.1" 502)._socket frame]
          ∧ frame[6]? = some ((300 : Int) % 256).toNat)
      ∧ ∃ frame : List Nat,
          (((modbus.construct "127.0.0.1" 502).modbus_set_slave_id (-1)).modbus_write okEnv [] 0
              1 0x06 [222]).2.2
            = [] ++ [Call.send (modbus.construct "127.0.0.1" 502)._socket frame]
          ∧ frame[6]? = some ((-1 : Int) % 256).toNat :=
  ⟨⟨by decide, by decide, by decide⟩,
    (C14_slave_id_byte okEnv (modbus.construct "127.0.0.1" 502) [] 0 1 0x06 [222] 300
      (by decide)).2.1,
    (C14_slave_id_byte okEnv (modbus.construct "127.0.0.1" 502) [] 0 1 0x06 [222] (-1)
      (by decide)).2.1⟩

/-- C15: for every session state, address and value, and whatever the
transport's `send` reports, `modbus_write_register` returns 0.  The status that
`modbus_write` returns is the result of `send`, and `modbus_write_register`
drops it: replacing the results of `send` by any others leaves its return value
the same. -/
theorem C15_write_register_returns_zero (env : Env) (m : modbus) (w : World) (a v : Nat)
    (r : Nat → Int) :
    (m.modbus_write_register env w a v).1 = 0
      ∧ (m.modbus_write env w a 1 WRITE_REG [v]).1 = env.send w.length
      ∧ (m.modbus_write_register { env with send := r } w a v).1
          = (m.modbus_write_register env w a v).1 := by
  have h : ∀ e : Env, (m.modbus_write_register e w a v).1 = 0 := by
    intro e
    unfold modbus.modbus_write_register
    split <;> rfl
  refine ⟨h env, ?_, ?_⟩
  · rw [modbus_write_single env m w a 1 WRITE_REG [v] (Or.inr rfl)]
    rfl
  · rw [h, h]

/-- C17: no operation changes the error state.  For every session state, after
`modbus_connect` (whatever path it takes), `modbus_close`, `modbus_set_slave_id`
and `modbus_write_register`, and after every sequence of them, `err`, `err_no`
and `error_msg` are what they were before; on a fresh session they are still
`false`, 0 and the empty string after `modbus_connect`, whatever it returned. -/
theorem C17_error_state_unchanged (env : Env) (m : modbus) (w : World) (id : Int) (a v : Nat)
    (ops : List Op) (host : String) (port : Nat) :
    ((m.modbus_connect env w).2.1.err = m.err
        ∧ (m.modbus_connect env w).2.1.err_no = m.err_no
        ∧ (m.modbus_connect env w).2.1.error_msg = m.error_msg)
      ∧ ((step env (m, w) Op.close).1.err = m.err
        ∧ (step env (m, w) Op.close).1.err_no = m.err_no
        ∧ (step env (m, w) Op.close).1.error_msg = m.error_msg)
      ∧ ((m.modbus_set_slave_id id).err = m.err
        ∧ (m.modbus_set_slave_id id).err_no = m.err_no
        ∧ (m.modbus_set_slave_id id).error_msg = m.error_msg)
      ∧ ((m.modbus_write_register env w a v).2.1.err = m.err
        ∧ (m.modbus_write_register env w a v).2.1.err_no = m.err_no
        ∧ (m.modbus_write_register env w a v).2.1.error_msg = m.error_msg)
      ∧ ((run env (m, w) ops).1.err = m.err
        ∧ (run env (m, w) ops).1.err_no = m.err_no
        ∧ (run env (m, w) ops).1.error_msg = m.error_msg)
      ∧ (((modbus.construct host port).modbus_connect env []).2.1.err = false
        ∧ ((modbus.construct host port).modbus_connect env []).2.1.err_no = 0
        ∧ ((modbus.construct host port).modbus_connect env []).2.1.error_msg = "") := by
  obtain ⟨c1, c2, c3, _⟩ := fields_modbus_connect env m w
  obtain ⟨w1, w2, w3, _⟩ := fields_modbus_write_register env m w a v
  obtain ⟨f1, f2, f3, _⟩ := fields_modbus_connect env (modbus.construct host port) []
  exact ⟨⟨c1, c2, c3⟩, ⟨rfl, rfl, rfl⟩, ⟨rfl, rfl, rfl⟩, ⟨w1, w2, w3⟩, error_state_run env ops (m, w),
    ⟨f1, f2, f3⟩⟩

/-- C18: `modbus_close` hands the current value of the socket handle field to
the transport's close, whatever the session state.  On a freshly constructed
session, and on one whose `modbus_connect` failed at the host/port check (which
calls no primitive and changes nothing), that handle is the default-initialised
0, and no socket was created. -/
theorem C18_close_passes_current_handle (env : Env) (m : modbus) (w : World) (host : String)
    (port : Nat) :
    m.modbus_close env w
        = w ++ Call.close m._socket :: (if env.win32 = true then [Call.WSACleanup] else [])
      ∧ (modbus.construct host port).modbus_close env []
        = Call.close 0 :: (if env.win32 = true then [Call.WSACleanup] else [])
      ∧ (host.isEmpty = true ∨ port % 65536 = 0 →
          (modbus.construct host port).modbus_connect env []
              = (false, modbus.construct host port, [])
            ∧ (run env (modbus.construct host port, []) [Op.connect, Op.close]).2
              = Call.close 0 :: (if env.win32 = true then [Call.WSACleanup] else [])) := by
  have h1 : ∀ (m : modbus) (w : World), m.modbus_close env w
      = w ++ Call.close m._socket :: (if env.win32 = true then [Call.WSACleanup] else []) := by
    intro m w
    unfold modbus.modbus_close WSACleanup
    split <;> simp
  refine ⟨h1 m w, h1 _ [], ?_⟩
  intro hbad
  have hc : (modbus.construct host port).modbus_connect env []
      = (false, modbus.construct host port, []) := by
    have hcond : (modbus.construct host port).HOST.isEmpty = true
        ∨ (modbus.construct host port).PORT = 0 := hbad
    unfold modbus.modbus_connect
    rw [if_pos hcond]
  refine ⟨hc, ?_⟩
  simp only [run, step, hc]
  exact h1 _ []

/-- C18, at a concrete input: an empty host on the Berkeley build. -/
theorem C18_close_passes_current_handle_witness :
    ("".isEmpty = true ∨ 502 % 65536 = 0)
      ∧ (modbus.construct "" 502).modbus_connect okEnv [] = (false, modbus.construct "" 502, [])
      ∧ (run okEnv (modbus.construct "" 502, []) [Op.connect, Op.close]).2
          = Call.close 0 :: (if okEnv.win32 = true then [Call.WSACleanup] else []) :=
  ⟨by decide,
    (C18_close_passes_current_handle okEnv (modbus.construct "" 502) [] "" 502).2.2
      (by decide)⟩

/-- C12: `modbus_connect` returns true exactly when the host is non-empty, the
port is non-zero, `socket()` is called and answers a valid handle, and
`connect()` is called and succeeds.  With an empty host or port 0 it returns
false, calls no primitive and changes nothing.  On every failing path the
connected flag keeps its value (false on a fresh session); on success it
becomes true.  In terms of the platform's answers: on the Berkeley build the
socket and connect answers decide alone, on the `_WIN32` build `socket()` is
reached only after `WSAStartup` has returned 0. -/
theorem C12_connect_result (env : Env) (m : modbus) (w : World) (host : String) (port : Nat) :
    ((m.modbus_connect env w).1 = true
        ↔ (m.HOST.isEmpty = false ∧ m.PORT ≠ 0
            ∧ socketCreated env w (m.modbus_connect env w).2.2 = true
            ∧ transportConnected env w (m.modbus_connect env w).2.2 = true))
      ∧ (m.HOST.isEmpty = true ∨ m.PORT = 0 → m.modbus_connect env w = (false, m, w))
      ∧ ((m.modbus_connect env w).1 = false →
          (m.modbus_connect env w).2.1._connected = m._connected)
      ∧ ((m.modbus_connect env w).1 = true → (m.modbus_connect env w).2.1._connected = true)
      ∧ (((modbus.construct host port).modbus_connect env []).1 = false →
          ((modbus.construct host port).modbus_connect env []).2.1._connected = false)
      ∧ (env.win32 = false →
          ((m.modbus_connect env w).1 = true
            ↔ (m.HOST.isEmpty = false ∧ m.PORT ≠ 0
                ∧ X_ISVALIDSOCKET env (env.socket w.length) = true
                ∧ X_ISCONNECTSUCCEED env (env.connect (w.length + 3)) = true)))
      ∧ (env.win32 = true →
          ((m.modbus_connect env w).1 = true
            ↔ (m.HOST.isEmpty = false ∧ m.PORT ≠ 0 ∧ env.WSAStartup w.length = 0
                ∧ X_ISVALIDSOCKET env (env.socket (w.length + 1)) = true
                ∧ X_ISCONNECTSUCCEED env (env.connect (w.length + 4)) = true))) :=
  ⟨modbus_connect_iff env m w, modbus_connect_bad_config env m w, modbus_connect_false env m w,
    fun h => (modbus_connect_true env m w h).1,
    fun h => (modbus_connect_false env (modbus.construct host port) [] h).trans rfl,
    (modbus_connect_iff_answers env m w).1, (modbus_connect_iff_answers env m w).2⟩

/-- C12, at concrete inputs: a platform on which every primitive succeeds, one on
which `connect()` fails, and a session with port 0. -/
theorem C12_connect_result_witness :
    ((modbus.construct "127.0.0.1" 502).HOST.isEmpty = false
        ∧ (modbus.construct "127.0.0.1" 502).PORT ≠ 0
        ∧ socketCreated okEnv []
            ((modbus.construct "127.0.0.1" 502).modbus_connect okEnv []).2.2 = true
        ∧ transportConnected okEnv []
            ((modbus.construct "127.0.0.1" 502).modbus_connect okEnv []).2.2 = true)
      ∧ ((modbus.construct "127.0.0.1" 502).modbus_connect okEnv []).1 = true
      ∧ ((modbus.construct "127.0.0.1" 502).modbus_connect okEnv []).2.1._connected = true
      ∧ ((modbus.construct "127.0.0.1" 502).modbus_connect
            { okEnv with connect := fun _ => -1 } []).1 = false
      ∧ ((modbus.construct "127.0.0.1" 502).modbus_connect
            { okEnv with connect := fun _ => -1 } []).2.1._connected = false
      ∧ ((modbus.construct "127.0.0.1" 0).HOST.isEmpty = true
          ∨ (modbus.construct "127.0.0.1" 0).PORT = 0)
      ∧ (modbus.construct "127.0.0.1" 0).modbus_connect okEnv []
          = (false, modbus.construct "127.0.0.1" 0, []) :=
  ⟨by decide,
    (C12_connect_result okEnv (modbus.construct "127.0.0.1" 502) [] "127.0.0.1" 502).1.mpr
      (by decide),
    (C12_connect_result okEnv (modbus.construct "127.0.0.1" 502) [] "127.0.0.1" 502).2.2.2.1
      (by decide),
    by decide,
    (C12_connect_result { okEnv with connect := fun _ => -1 } (modbus.construct "127.0.0.1" 502)
      [] "127.0.0.1" 502).2.2.2.2.1 (by decide),
    by decide,
    (C12_connect_result okEnv (modbus.construct "127.0.0.1" 0) [] "127.0.0.1" 0).2.1
      (by decide)⟩

/-- C16: for Write Multiple Coils with `q ≥ 1` arbitrary 16-bit coil values,
packed byte `j` (frame offset `13 + j`) is the sum, over the `i < q` with
`i / 8 = j`, of `(value[i] * 2^(i mod 8)) mod 256`, taken modulo 256.  The coils
whose value is a multiple of 256 can be left out of that sum, and when every
value is 0 or 1 the byte is the bitwise OR of the bits `(value[i] & 1) << (i mod
8)`. -/
theorem C16_additive_packing (env : Env) (m : modbus) (w : World) (a q : Nat) (vs : List Nat)
    (_hq : 1 ≤ q) (_hq16 : q < 65536) (_hlen : vs.length = q) (hvs : ∀ v ∈ vs, v < 65536) :
    ∃ frame : List Nat,
      (m.modbus_write env w a q 0x0F vs).2.2 = w ++ [Call.send m._socket frame]
      ∧ (∀ j, j < (q + 7) / 8 →
          frame[13 + j]?
            = some (Finset.sum ((Finset.range q).filter (fun i => i / 8 = j))
                (fun i => (vs.getD i 0 * 2 ^ (i % 8)) % 256) % 256))
      ∧ (∀ j, j < (q + 7) / 8 →
          frame[13 + j]?
            = some (Finset.sum
                ((Finset.range q).filter (fun i => i / 8 = j ∧ vs.getD i 0 % 256 ≠ 0))
                (fun i => (vs.getD i 0 * 2 ^ (i % 8)) % 256) % 256))
      ∧ ((∀ v ∈ vs, v = 0 ∨ v = 1) → ∀ j, j < (q + 7) / 8 →
          frame[13 + j]? = some (orPack vs q j)) := by
  have hbyte : ∀ j, j < (q + 7) / 8 →
      (coilsBuf env m w a q vs)[13 + j]? = some (packSum vs q j % 256) := by
    intro j hj
    rw [getElem?_coilsBuf, if_pos (by omega)]
    congr 3
    omega
  have hsum : ∀ j, packSum vs q j
      = Finset.sum ((Finset.range q).filter (fun i => i / 8 = j))
          (fun i => (vs.getD i 0 * 2 ^ (i % 8)) % 256) := by
    intro j
    rw [packSum_eq_sum]
    apply Finset.sum_congr rfl
    intro i _
    rw [readU16_eq_getD vs hvs i]
  refine ⟨_, world_modbus_write_coils env m w a q vs, ?_, ?_, ?_⟩
  · intro j hj
    rw [hbyte j hj, hsum j]
  · intro j hj
    rw [hbyte j hj, hsum j, Finset.sum_filter, Finset.sum_filter]
    congr 2
    apply Finset.sum_congr rfl
    intro i _
    by_cases hP : i / 8 = j
    · by_cases hQ : vs.getD i 0 % 256 = 0
      · rw [if_pos hP, if_neg (fun h => h.2 hQ), mul_pow_mod_eq_zero _ _ hQ]
      · rw [if_pos hP, if_pos ⟨hP, hQ⟩]
    · rw [if_neg hP, if_neg (fun h => hP h.1)]
  · intro hbits j hj
    have hb := readU16_le_one vs hbits
    rw [hbyte j hj, Nat.mod_eq_of_lt (packSum_lt vs hb q j), packSum_eq_orPack vs hb q j]

/-- C16, at a concrete input: the three coil values `[0xFF00, 1, 3]`, packed as
the byte `0 + 2 + 12`. -/
theorem C16_additive_packing_witness :
    (1 ≤ 3 ∧ 3 < 65536 ∧ [0xFF00, 1, 3].length = 3 ∧ ∀ v ∈ [0xFF00, 1, 3], v < 65536)
      ∧ ∃ frame : List Nat,
        ((modbus.construct "127.0.0.1" 502).modbus_write okEnv [] 0 3 0x0F [0xFF00, 1, 3]).2.2
          = [] ++ [Call.send (modbus.construct "127.0.0.1" 502)._socket frame]
        ∧ (∀ j, j < (3 + 7) / 8 →
            frame[13 + j]?
              = some (Finset.sum ((Finset.range 3).filter (fun i => i / 8 = j))
                  (fun i => ([0xFF00, 1, 3].getD i 0 * 2 ^ (i % 8)) % 256) % 256))
        ∧ (∀ j, j < (3 + 7) / 8 →
            frame[13 + j]?
              = some (Finset.sum
                  ((Finset.range 3).filter (fun i => i / 8 = j ∧ [0xFF00, 1, 3].getD i 0 % 256 ≠ 0))
                  (fun i => ([0xFF00, 1, 3].getD i 0 * 2 ^ (i % 8)) % 256) % 256))
        ∧ ((∀ v ∈ [0xFF00, 1, 3], v = 0 ∨ v = 1) → ∀ j, j < (3 + 7) / 8 →
            frame[13 + j]? = some (orPack [0xFF00, 1, 3] 3 j)) :=
  ⟨⟨by decide, by decide, by decide, by decide⟩,
    C16_additive_packing okEnv (modbus.construct "127.0.0.1" 502) [] 0 3 [0xFF00, 1, 3]
      (by decide) (by decide) (by decide) (by decide)⟩

end ModbusTcpEx
